import Mathlib

/-!
Verification of the `content` repository (Cortex XSOAR integration scripts)
against its natural-language specification.

The development shallowly embeds the two Python source files:

  * `Packs/SymantecDLP/Integrations/SymantecDLPV2/SymantecDLPV2.py`
  * `Packs/Decoders/Scripts/DecodersHex/DecodersHex.py`

Modelling conventions:

  * Python JSON-like values are modelled by the inductive `PyVal`
    (dicts are association lists with unique keys, as Python dicts are).
  * Python exceptions are modelled by `PyErr`; fallible code returns
    `Except PyErr α`.  `DemistoException` is the `PyErr.demisto`
    constructor; the `except DemistoException` clauses in the source
    match exactly on it.
  * HTTP calls are abstracted as functions stored in a `Client`
    structure; every pure part of the source (request-body
    construction, filtering, field mapping) is embedded directly.
  * Python string comparison (`<=` on `str`) is lexicographic on code
    points; it is modelled by the boolean comparator `pyStrLeb` on the
    underlying character lists.
  * `dateparser.parse(...).strftime(...)` (an external library call) is
    abstracted as a function parameter `dp : String → Option String`;
    `Option.none` models `dateparser.parse` returning `None`, in which
    case the source raises `AttributeError`.
-/

/-- Python exceptions, as far as the embedded code distinguishes them.
`demisto` is `DemistoException`; everything else is only ever re-raised. -/
inductive PyErr where
  | demisto (msg : String)
  | valueError (msg : String)
  | typeError (msg : String)
  | keyError (key : String)
  | indexError
  | other (msg : String)
deriving DecidableEq, Repr

/-- Python JSON-like values (the payloads the scripts manipulate). -/
inductive PyVal where
  | none
  | str (s : String)
  | int (n : Int)
  | bool (b : Bool)
  | list (vs : List PyVal)
  | dict (ps : List (String × PyVal))

/-- A Python dict with string keys: an association list with unique keys. -/
abbrev PyDict := List (String × PyVal)

/-- Python truthiness of a `PyVal`. -/
def pyTruthy : PyVal → Bool
  | .none => false
  | .str s => s != ""
  | .int n => n != 0
  | .bool b => b
  | .list vs => !vs.isEmpty
  | .dict ps => !ps.isEmpty

/-- Structural equality `==` on Python values (used by `in` checks). -/
def pyBeq : PyVal → PyVal → Bool
  | .none, .none => true
  | .str a, .str b => a == b
  | .int a, .int b => a == b
  | .bool a, .bool b => a == b
  | .list as, .list bs => pyBeqList as bs
  | .dict as, .dict bs => pyBeqDict as bs
  | _, _ => false
where
  /-- `==` on Python list values. -/
  pyBeqList : List PyVal → List PyVal → Bool
    | [], [] => true
    | a :: as, b :: bs => pyBeq a b && pyBeqList as bs
    | _, _ => false
  /-- `==` on Python dict item lists. -/
  pyBeqDict : List (String × PyVal) → List (String × PyVal) → Bool
    | [], [] => true
    | (k, a) :: as, (k2, b) :: bs => k == k2 && pyBeq a b && pyBeqDict as bs
    | _, _ => false

/-- Python `x in l` on a list of values. -/
def pyMem (x : PyVal) (l : List PyVal) : Bool :=
  l.any (fun y => pyBeq x y)

/-- `d.get(k, default)` on a Python dict. -/
def assocGetD (d : PyDict) (k : String) (default : PyVal) : PyVal :=
  match d.lookup k with
  | some v => v
  | Option.none => default

/-- `v.get(k)` where `v` may not be a dict: raises `AttributeError` then. -/
def pyValGet (v : PyVal) (k : String) : Except PyErr PyVal :=
  match v with
  | .dict d => .ok (assocGetD d k .none)
  | _ => .error (.other "AttributeError: object has no attribute get")

/-- `v.get(k, default)` where `v` may not be a dict. -/
def pyValGetD (v : PyVal) (k : String) (default : PyVal) : Except PyErr PyVal :=
  match v with
  | .dict d => .ok (assocGetD d k default)
  | _ => .error (.other "AttributeError: object has no attribute get")

/-- `for x in v` where the source expects a list (iteration over
non-lists is not reached by the embedded flows and is modelled as a
`TypeError`). -/
def pyValList (v : PyVal) : Except PyErr (List PyVal) :=
  match v with
  | .list vs => .ok vs
  | _ => .error (.typeError "object is not iterable")

/-- `v[0]`: first element of a Python list value. -/
def pyIndex0 (v : PyVal) : Except PyErr PyVal :=
  match v with
  | .list (x :: _) => .ok x
  | .list [] => .error .indexError
  | _ => .error (.typeError "object is not subscriptable")

/-- `d.pop(k)` on a Python dict: removes the key, raising `KeyError`
when it is absent. -/
def dictPop (d : PyDict) (k : String) : Except PyErr PyDict :=
  match d.lookup k with
  | some _ => .ok (d.filter (fun p => p.1 ≠ k))
  | Option.none => .error (.keyError k)

/-- Values dropped by `assign_params` (`None`, `''`, `[]`, `{}`, `()`). -/
def assignParamsIgnored : PyVal → Bool
  | .none => true
  | .str "" => true
  | .list [] => true
  | .dict [] => true
  | _ => false

/-- `assign_params(**kwargs)` from CommonServerPython: keeps only the
entries whose value is not in `(None, '', [], {}, ())`. -/
def assignParams (ps : List (String × PyVal)) : PyDict :=
  ps.filter (fun p => !assignParamsIgnored p.2)

/-- `d.update(e)` on Python dicts: values of existing keys are replaced
in place, new keys are appended in `e`'s order. -/
def dictUpdate (d e : PyDict) : PyDict :=
  (d.map fun p =>
    match e.lookup p.1 with
    | some v => (p.1, v)
    | Option.none => p) ++
  e.filter (fun p => (d.lookup p.1).isNone)

/-- `mapM` for `Except` with plain structural recursion (models a
Python `for` loop that appends to an accumulator and may raise). -/
def mapME (f : α → Except PyErr β) : List α → Except PyErr (List β)
  | [] => .ok []
  | x :: xs =>
    match f x with
    | .error e => .error e
    | .ok y =>
      match mapME f xs with
      | .error e => .error e
      | .ok ys => .ok (y :: ys)

/-- Python string `<=`: lexicographic comparison of code points. -/
def pyStrLeb : List Char → List Char → Bool
  | [], _ => true
  | _ :: _, [] => false
  | a :: as, b :: bs => if a < b then true else if b < a then false else pyStrLeb as bs

/-- `s <= t` on Python strings. -/
def pyStrLe (s t : String) : Prop := pyStrLeb s.data t.data = true

instance (s t : String) : Decidable (pyStrLe s t) := by
  unfold pyStrLe
  infer_instance

/-- `s < t` on Python strings. -/
def pyStrLt (s t : String) : Prop := pyStrLe s t ∧ s ≠ t

/-- `s.isdigit()` for ASCII content (all our inputs are ASCII). -/
def pyStrIsDigit (s : String) : Bool :=
  s != "" && s.data.all (fun c => '0' ≤ c && c ≤ '9')

/-- `int(s)` for a string of digits. -/
def digitsToNat (s : String) : Nat :=
  s.data.foldl (fun acc c => 10 * acc + (c.toNat - 48)) 0

/-- Clamp one bound of a Python slice `l[a:b]` to `[0, n]`. -/
def pySliceBound (i : Int) (n : Nat) : Nat :=
  if i < 0 then ((n : Int) + i).toNat else min i.toNat n

/-- Python list slicing `l[a:b]` with full negative-index semantics. -/
def pySlice (a b : Int) (xs : List α) : List α :=
  (xs.take (pySliceBound b xs.length)).drop (pySliceBound a xs.length)

/-- `str(x)` for the values interpolated into f-strings here
(an optional integer: `None` or an `int`). -/
def pyOptIntRepr : Option Int → String
  | Option.none => "None"
  | some n => toString n

/-- Substring check used by the `'401' in str(e)`-style tests. -/
def listStartsWith : List Char → List Char → Bool
  | [], _ => true
  | _ :: _, [] => false
  | p :: ps, c :: cs => p == c && listStartsWith ps cs

/-- Auxiliary for `strContains`. -/
def strContainsAux (p : List Char) : List Char → Bool
  | [] => listStartsWith p []
  | c :: rest => listStartsWith p (c :: rest) || strContainsAux p rest

/-- `pat in s` on Python strings. -/
def strContains (s pat : String) : Bool :=
  strContainsAux pat.data s.data

/-- `arg_to_number` from CommonServerPython, restricted to the value
shapes that occur here: `None`/`''` give `None`, ints pass through,
digit strings are parsed, `True`/`False` are ints in Python; anything
else raises `ValueError` (the float fallback of the real helper is not
exercised by the embedded flows). -/
def pyArgToNumber : PyVal → Except PyErr (Option Int)
  | .none => .ok Option.none
  | .int n => .ok (some n)
  | .bool b => .ok (some (if b then 1 else 0))
  | .str s =>
    if s = "" then .ok Option.none
    else if pyStrIsDigit s then .ok (some (digitsToNat s))
    else .error (.valueError "Invalid number")
  | _ => .error (.valueError "Invalid number")

/-- `argToList` from CommonServerPython (comma separator): falsy values
give `[]`, lists pass through, strings are split on `,` and stripped
(the JSON-literal special case is not exercised here), any other truthy
value is wrapped in a singleton. -/
def argToListPy (v : PyVal) : List PyVal :=
  match v with
  | .none => []
  | .list vs => vs
  | .str s => if s = "" then [] else (s.splitOn ",").map (fun t => .str t.trim)
  | v => if pyTruthy v then [v] else []

/-- An optional int as a `PyVal`. -/
def optIntVal : Option Int → PyVal
  | Option.none => .none
  | some n => .int n

/-- An optional string as a `PyVal`. -/
def optStrVal : Option String → PyVal
  | Option.none => .none
  | some s => .str s

/-!
## DecodersHex (`Packs/Decoders/Scripts/DecodersHex/DecodersHex.py`)

`decoders_hex(encoded_text, to='utf-8')` is
`bytes.fromhex(encoded_text).decode(to)`.  Bytes are modelled as `Nat`
values below 256.  Only the `'utf-8'` codec of `bytes.decode` is
modelled (it is the only codec the claims touch); passing `None` as the
encoding raises `TypeError`, as in CPython.
-/

/-- Hex value of one character, accepting both cases (as
`bytes.fromhex` does). -/
def hexVal (c : Char) : Option Nat :=
  let n := c.toNat
  if 48 ≤ n ∧ n ≤ 57 then some (n - 48)
  else if 97 ≤ n ∧ n ≤ 102 then some (n - 87)
  else if 65 ≤ n ∧ n ≤ 70 then some (n - 55)
  else Option.none

/-- `bytes.fromhex`: pairs of hex digits, with ASCII spaces allowed
between pairs; anything else is a parse failure (`ValueError`). -/
def bytesFromhexAux : List Char → Option (List Nat)
  | [] => some []
  | c :: cs =>
    if c = ' ' then bytesFromhexAux cs
    else
      match cs with
      | [] => Option.none
      | c2 :: cs2 =>
        match hexVal c, hexVal c2 with
        | some hi, some lo => (bytesFromhexAux cs2).map (fun bs => (16 * hi + lo) :: bs)
        | _, _ => Option.none

/-- `bytes.fromhex(s)`, `None` modelling the `ValueError` case. -/
def bytes_fromhex (s : String) : Option (List Nat) :=
  bytesFromhexAux s.data

/-- One lowercase hex digit. -/
def hexDigitChar (d : Nat) : Char :=
  Char.ofNat (if d < 10 then 48 + d else 87 + d)

/-- `bytes.hex()`-style encoding: two lowercase hex digits per byte.
This is the "hexadecimal encoding" of a byte sequence. -/
def bytesToHex (bs : List Nat) : String :=
  String.mk (bs.flatMap (fun b => [hexDigitChar (b / 16), hexDigitChar (b % 16)]))

/-- One state of the strict UTF-8 decoder: `Option.none` at a character
boundary, `some (acc, need, lo)` inside a multi-byte sequence with
accumulated value `acc`, `need` continuation bytes still expected and
`lo` the smallest scalar the sequence length may encode (the overlong
bound). -/
abbrev Utf8State := Option (Nat × Nat × Nat)

/-- Strict UTF-8 decoding, one byte per step (CPython's
`bytes.decode('utf-8')` acceptance: no continuation-byte leads, no
overlong forms, no surrogates, nothing above U+10FFFF, no truncated
sequences). -/
def utf8DecodeAux : Utf8State → List Nat → Option (List Char)
  | Option.none, [] => some []
  | some _, [] => Option.none
  | Option.none, b :: rest =>
    if b < 128 then (utf8DecodeAux Option.none rest).map (fun cs => Char.ofNat b :: cs)
    else if b < 192 then Option.none
    else if b < 224 then utf8DecodeAux (some (b - 192, 1, 128)) rest
    else if b < 240 then utf8DecodeAux (some (b - 224, 2, 2048)) rest
    else if b < 245 then utf8DecodeAux (some (b - 240, 3, 65536)) rest
    else Option.none
  | some (acc, need, lo), b :: rest =>
    if 128 ≤ b ∧ b < 192 then
      let acc2 := acc * 64 + (b - 128)
      if need = 1 then
        if lo ≤ acc2 ∧ acc2 < 1114112 ∧ (acc2 < 55296 ∨ 57344 ≤ acc2) then
          (utf8DecodeAux Option.none rest).map (fun cs => Char.ofNat acc2 :: cs)
        else Option.none
      else utf8DecodeAux (some (acc2, need - 1, lo)) rest
    else Option.none

/-- `bytes.decode('utf-8')` on a byte list, `Option.none` modelling
`UnicodeDecodeError`. -/
def utf8Decode (l : List Nat) : Option (List Char) :=
  utf8DecodeAux Option.none l

/-- Standard UTF-8 encoding of one scalar value (what Python's
`str.encode('utf-8')` produces per character). -/
def utf8EncodeChar (c : Char) : List Nat :=
  let n := c.toNat
  if n < 128 then [n]
  else if n < 2048 then [192 + n / 64, 128 + n % 64]
  else if n < 65536 then [224 + n / 4096, 128 + n / 64 % 64, 128 + n % 64]
  else [240 + n / 262144, 128 + n / 4096 % 64, 128 + n / 64 % 64, 128 + n % 64]

/-- UTF-8 encoding of a string's characters. -/
def utf8Encode (cs : List Char) : List Nat :=
  cs.flatMap utf8EncodeChar

/-- `bytes.decode(enc)`.  `None` as encoding raises `TypeError`
(CPython rejects a non-`str` encoding argument); only the `utf-8`
codec is modelled, with failures as `ValueError`-class
`UnicodeDecodeError`. -/
def pyBytesDecode (bs : List Nat) (enc : Option String) : Except PyErr String :=
  match enc with
  | Option.none => .error (.typeError "decode() argument encoding must be str, not None")
  | some e =>
    if e = "utf-8" then
      match utf8Decode bs with
      | some cs => .ok (String.mk cs)
      | Option.none => .error (.valueError "UnicodeDecodeError")
    else .error (.other "codec not modelled")

/-- `decoders_hex(encoded_text, to)`:
`bytes.fromhex(encoded_text).decode(to)`.  The Python declaration
defaults `to` to `'utf-8'`, which corresponds to passing
`some "utf-8"` here. -/
def decoders_hex (encoded_text : String) (toEnc : Option String) : Except PyErr String :=
  match bytes_fromhex encoded_text with
  | some bs => pyBytesDecode bs toEnc
  | Option.none => .error (.valueError "non-hexadecimal number found in fromhex() arg")

/-- The result object a command returns to the host platform
(markdown rendering is not modelled; `outputs` carries the payload). -/
structure CommandResults where
  outputs : PyVal
  readable : PyVal

/-- `decoders_hex_command(args)`: reads `encoded` and `to` from the
argument dict (each defaulting to `None`), rejects falsy `encoded`,
and calls `decoders_hex(encoded_text=..., to=decode_to)` — note that an
absent `to` key is passed on as `None`, not as the `'utf-8'` default. -/
def decoders_hex_command (args : PyDict) : Except PyErr CommandResults :=
  let encoded_text := assocGetD args "encoded" .none
  let decode_to := assocGetD args "to" .none
  if !pyTruthy encoded_text then .error (.valueError "Encoded text not specified")
  else
    match encoded_text with
    | .str s =>
      let decoded : Except PyErr String :=
        match decode_to with
        | .none => decoders_hex s Option.none
        | .str t => decoders_hex s (some t)
        | _ => .error (.typeError "decode() argument encoding must be str")
      decoded.map (fun result =>
        { outputs := .dict [("Decoded", .str result), ("Encoded", .str s),
                            ("Encoder", .str "HEX"), ("Decoded-To", decode_to)],
          readable := .none })
    | _ => .error (.typeError "fromhex() argument must be str")

/-!
## SymantecDLPV2 (`Packs/SymantecDLP/Integrations/SymantecDLPV2/SymantecDLPV2.py`)
-/

/-- `MAX_PAGE_SIZE`. -/
def MAX_PAGE_SIZE : Int := 50

/-- `INCIDENT_SEVERITY_MAPPING[severity]`: raises `KeyError` for an
unknown severity name. -/
def sevLookup (severity : String) : Except PyErr Int :=
  if severity = "Info" then .ok 4
  else if severity = "Low" then .ok 3
  else if severity = "Medium" then .ok 2
  else if severity = "High" then .ok 1
  else .error (.keyError severity)

/-- `INCIDENT_TYPE_MAPPING[incident_type]`: raises `KeyError` for an
unknown type name. -/
def typeLookup (incident_type : String) : Except PyErr String :=
  if incident_type = "Network" then .ok "NETWORK"
  else if incident_type = "Discover" then .ok "DISCOVER"
  else if incident_type = "Endpoint" then .ok "ENDPOINT"
  else .error (.keyError incident_type)

/-- `get_severity_name_by_id`: inverse lookup in
`INCIDENT_SEVERITY_MAPPING`, `None` when no id matches. -/
def get_severity_name_by_id : Option Int → Option String
  | some 4 => some "Info"
  | some 3 => some "Low"
  | some 2 => some "Medium"
  | some 1 => some "High"
  | _ => Option.none

/-- `create_filter_dict(filter_type, filter_by, filter_value, operator)`:
the dict `{"filterType": .., "operandOne": {"name": filter_by},
"operandTwoValues": .., "operator": ..}` (the `operandOne` wrapper is
flattened to its single `name` member). -/
structure FilterDict where
  filterType : String
  operandOneName : String
  operandTwoValues : List PyVal
  operator : String

/-- `create_filter_dict`. -/
def create_filter_dict (filter_type filter_by : String) (filter_value : List PyVal)
    (operator : String) : FilterDict :=
  { filterType := filter_type, operandOneName := filter_by,
    operandTwoValues := filter_value, operator := operator }

/-- The names in `INCIDENTS_LIST_BODY` (each wrapped as `{"name": ..}`
in the source). -/
def INCIDENTS_LIST_BODY : List String :=
  ["incidentId", "incidentStatusId", "creationDate", "detectionDate", "severityId",
   "messageSource", "messageTypeId", "policyVersion", "policyId", "matchCount",
   "detectionServerId"]

/-- The JSON body `Client.get_incidents_request` posts to
`/ProtectManager/webservices/v2/incidents`.  `orderBy := true` stands
for the `[{"order": "ASC", "field": {"name": "creationDate"}}]` entry;
`filter = some fs` stands for
`{"booleanOperator": "AND", "filterType": "booleanLogic", "filters": fs}`. -/
structure IncidentsRequestBody where
  limit : Int
  select : List String
  orderBy : Bool
  filter : Option (List FilterDict)

/-- The body construction of `Client.get_incidents_request`: a filter
block is created only when at least one of the four filter arguments is
truthy, and each truthy argument contributes one filter dict, in source
order. -/
def buildIncidentsBody (creation_date : Option String) (status_id : List String)
    (severity : List Int) (incident_type : List String) (limit : Int)
    (order_by : Bool) : IncidentsRequestBody :=
  let cdTruthy := match creation_date with
    | some s => s != ""
    | Option.none => false
  let anyFilter := cdTruthy || !status_id.isEmpty || !severity.isEmpty || !incident_type.isEmpty
  let filters :=
    (if cdTruthy then
      [create_filter_dict "localDateTime" "creationDate"
        [.str ((creation_date).getD "")] "GT"]
     else []) ++
    (if !status_id.isEmpty then
      [create_filter_dict "long" "incidentStatusId" (status_id.map .str) "IN"]
     else []) ++
    (if !severity.isEmpty then
      [create_filter_dict "long" "severityId" (severity.map .int) "IN"]
     else []) ++
    (if !incident_type.isEmpty then
      [create_filter_dict "string" "messageSource" (incident_type.map .str) "IN"]
     else [])
  { limit := limit, select := INCIDENTS_LIST_BODY, orderBy := order_by,
    filter := if anyFilter then some filters else Option.none }

/-- One record of the vendor's incidents-list response, with exactly the
fields selected by `INCIDENTS_LIST_BODY`.  `creationDate` is the
vendor's creation timestamp string (always present for listed
incidents); the other fields are nullable. -/
structure IncidentData where
  incidentId : Option Int
  incidentStatusId : Option Int
  creationDate : String
  detectionDate : Option String
  severityId : Option Int
  messageSource : Option String
  messageTypeId : Option Int
  policyVersion : Option Int
  policyId : Option Int
  matchCount : Option Int
  detectionServerId : Option Int
deriving DecidableEq

/-- The parsed incidents-list response (`response.get('incidents', [])`). -/
structure IncidentsResponse where
  incidents : List IncidentData

/-- The client: each field abstracts one HTTP request of the `Client`
class (the transport; request bodies are built by the embedded code). -/
structure Client where
  httpIncidents : IncidentsRequestBody → Except PyErr IncidentsResponse
  httpStatic : Option Int → Except PyErr PyDict
  httpEditable : Option Int → Except PyErr PyDict
  httpHistory : Option Int → Except PyErr (List PyDict)

/-- `Client.get_incidents_request`: builds the body and posts it. -/
def get_incidents_request (c : Client) (creation_date : Option String)
    (status_id : List String) (severity : List Int) (incident_type : List String)
    (limit : Int) (order_by : Bool) : Except PyErr IncidentsResponse :=
  c.httpIncidents (buildIncidentsBody creation_date status_id severity incident_type limit order_by)

/-- `parse_creation_date(creation_date)`:
`dateparser.parse(creation_date).strftime(DATE_FORMAT)` when the input
is truthy (raising `AttributeError` when `dateparser.parse` gives
`None`, modelled by `dp` returning `Option.none`); falsy input is
returned unchanged. -/
def parse_creation_date (dp : String → Option String) (creation_date : String) :
    Except PyErr String :=
  if creation_date ≠ "" then
    match dp creation_date with
    | some s => .ok s
    | Option.none => .error (.other "AttributeError: NoneType object has no attribute strftime")
  else .ok creation_date

/-- The `limit = limit if limit else MAX_PAGE_SIZE` defaulting in
`get_incidents_of_current_page`. -/
def effLimit : Option Int → Int
  | some n => if n ≠ 0 then n else MAX_PAGE_SIZE
  | Option.none => MAX_PAGE_SIZE

/-- `get_incidents_of_current_page(limit, page, page_size, incidents_list)`. -/
def get_incidents_of_current_page (limit page page_size : Option Int)
    (incidents_list : List α) : Except PyErr (List α) :=
  match page, page_size with
  | some p, some ps =>
    if p ≤ 0 then .error (.other "Chosen page number must be greater than 0")
    else .ok (pySlice ((p - 1) * ps) (p * ps) incidents_list)
  | _, _ => .ok (pySlice 0 (effLimit limit) incidents_list)

/-- `get_all_group_custom_attributes(group)`: collects every custom
attribute of the group as `{'name': .., 'index': ..}` plus `'value'`
when truthy, wrapped as `{'name': group name, 'customAttribute': [..]}`. -/
def get_all_group_custom_attributes (group : PyVal) : Except PyErr PyVal :=
  match pyValGet group "name" with
  | .error e => .error e
  | .ok gname =>
    match pyValGetD group "customAttributes" (.list []) with
    | .error e => .error e
    | .ok rawsV =>
      match pyValList rawsV with
      | .error e => .error e
      | .ok raws =>
        match mapME (fun raw =>
          match pyValGet raw "name" with
          | .error e => .error e
          | .ok aname =>
            match pyValGet raw "index" with
            | .error e => .error e
            | .ok idx =>
              match pyValGet raw "value" with
              | .error e => .error e
              | .ok aval =>
                .ok (PyVal.dict ([("name", aname), ("index", idx)] ++
                  (if pyTruthy aval then [("value", aval)] else [])))) raws with
        | .error e => .error e
        | .ok attrs => .ok (.dict [("name", gname), ("customAttribute", .list attrs)])

/-- `parse_custom_attribute(custom_attribute_group_list, args)`: the
four `custom_attributes` flag cases (`all`, group-name list, specific
attributes, none/other). -/
def parse_custom_attribute (groupsV : PyVal) (args : PyDict) : Except PyErr (List PyVal) :=
  let flag := assocGetD args "custom_attributes" .none
  if pyBeq flag (.str "all") then
    match pyValList groupsV with
    | .error e => .error e
    | .ok groups => mapME get_all_group_custom_attributes groups
  else if pyBeq flag (.str "custom attribute group name") then
    let custom_data := assocGetD args "custom_data" .none
    if !pyTruthy custom_data then
      .error (.demisto "When choosing the group value for custom_attributes argument - the custom_data list must be filled with group names. For example: custom_value=g1,g2,g3")
    else
      let group_name_list := argToListPy custom_data
      match pyValList groupsV with
      | .error e => .error e
      | .ok groups =>
        match mapME (fun group =>
          match pyValGet group "name" with
          | .error e => .error e
          | .ok gname =>
            if pyMem gname group_name_list then
              match get_all_group_custom_attributes group with
              | .error e => .error e
              | .ok g => .ok [g]
            else .ok []) groups with
        | .error e => .error e
        | .ok gs => .ok gs.flatten
  else if pyBeq flag (.str "specific attributes") then
    let custom_data := assocGetD args "custom_data" .none
    if !pyTruthy custom_data then
      .error (.demisto "When choosing the custom value for custom_attributes argument - the custom_data list must be filled with custom attribute names. For example: custom_value=ca1,ca2,ca3")
    else
      let custom_attribute_name_list := argToListPy custom_data
      match pyValList groupsV with
      | .error e => .error e
      | .ok groups =>
        match mapME (fun group =>
          match pyValGetD group "customAttributes" (.list []) with
          | .error e => .error e
          | .ok rawsV =>
            match pyValList rawsV with
            | .error e => .error e
            | .ok raws =>
              match mapME (fun raw =>
                match pyValGet raw "name" with
                | .error e => .error e
                | .ok aname =>
                  if pyMem aname custom_attribute_name_list then
                    match pyValGet raw "value" with
                    | .error e => .error e
                    | .ok aval =>
                      match pyValGet raw "index" with
                      | .error e => .error e
                      | .ok idx =>
                        match pyValGet group "name" with
                        | .error e => .error e
                        | .ok gname =>
                          .ok [PyVal.dict [("name", gname),
                            ("customAttribute", .dict (([("name", aname)] ++
                              (if pyTruthy aval then [("value", aval)] else [])) ++
                              [("index", idx)]))]]
                  else .ok []) raws with
              | .error e => .error e
              | .ok rs => .ok rs.flatten) groups with
        | .error e => .error e
        | .ok gs => .ok gs.flatten
  else .ok []

/-- `get_details_for_specific_type(incident_type, incident_info_map_static)`:
per-type additional fields (NETWORK indexes `recipientInfo[0]`, which
raises when absent or empty). -/
def get_details_for_specific_type (incident_type : String) (ims : PyVal) :
    Except PyErr PyDict :=
  if incident_type = "NETWORK" then
    match pyValGet ims "messageSubject" with
    | .error e => .error e
    | .ok msgSubject =>
      match pyValGet ims "networkSenderPort" with
      | .error e => .error e
      | .ok nsp =>
        match pyValGet ims "recipientInfo" with
        | .error e => .error e
        | .ok riV =>
          match pyIndex0 riV with
          | .error e => .error e
          | .ok ri0 =>
            match pyValGet ri0 "recipientDomain" with
            | .error e => .error e
            | .ok rd =>
              match pyValGet ri0 "recipientPort" with
              | .error e => .error e
              | .ok rp =>
                match pyValGet ri0 "recipientUrl" with
                | .error e => .error e
                | .ok ru =>
                  .ok (assignParams [("messageSubject", msgSubject),
                    ("networkSenderPort", nsp),
                    ("recipientInfo", .dict [("recipientDomain", rd),
                      ("recipientPort", rp), ("recipientUrl", ru)])])
  else if incident_type = "DISCOVER" then
    match pyValGet ims "discoverName" with
    | .error e => .error e
    | .ok v1 =>
      match pyValGet ims "discoverRepositoryLocation" with
      | .error e => .error e
      | .ok v2 =>
        match pyValGet ims "fileModifiedBy" with
        | .error e => .error e
        | .ok v3 =>
          match pyValGet ims "fileCreatedBy" with
          | .error e => .error e
          | .ok v4 =>
            match pyValGet ims "fileOwner" with
            | .error e => .error e
            | .ok v5 =>
              match pyValGet ims "fileOwnerEmail" with
              | .error e => .error e
              | .ok v6 =>
                match pyValGet ims "fileAccessDate" with
                | .error e => .error e
                | .ok v7 =>
                  match pyValGet ims "discoverServer" with
                  | .error e => .error e
                  | .ok v8 =>
                    match pyValGet ims "discoverTargetName" with
                    | .error e => .error e
                    | .ok v9 =>
                      match pyValGet ims "discoverScanStartDate" with
                      | .error e => .error e
                      | .ok v10 =>
                        .ok (assignParams [("discoverName", v1),
                          ("discoverRepositoryLocation", v2), ("fileModifiedBy", v3),
                          ("fileCreatedBy", v4), ("fileOwner", v5),
                          ("fileOwnerEmail", v6), ("fileAccessDate", v7),
                          ("discoverServer", v8), ("discoverTargetName", v9),
                          ("discoverScanStartDate", v10)])
  else if incident_type = "ENDPOINT" then
    match pyValGet ims "domainUserName" with
    | .error e => .error e
    | .ok v1 =>
      match pyValGet ims "endpointApplicationName" with
      | .error e => .error e
      | .ok v2 =>
        match pyValGet ims "endpointDeviceInstanceId" with
        | .error e => .error e
        | .ok v3 =>
          match pyValGet ims "endpointMachineName" with
          | .error e => .error e
          | .ok v4 =>
            match pyValGet ims "endpointFileName" with
            | .error e => .error e
            | .ok v5 =>
              match pyValGet ims "endpointFilePath" with
              | .error e => .error e
              | .ok v6 =>
                match pyValGet ims "fileCreatedBy" with
                | .error e => .error e
                | .ok v7 =>
                  match pyValGet ims "fileModifiedBy" with
                  | .error e => .error e
                  | .ok v8 =>
                    match pyValGet ims "endpointApplicationPath" with
                    | .error e => .error e
                    | .ok v9 =>
                      match pyValGet ims "endpointConnectionStatus" with
                      | .error e => .error e
                      | .ok v10 =>
                        match pyValGet ims "fileAccessDate" with
                        | .error e => .error e
                        | .ok v11 =>
                          .ok (assignParams [("domainUserName", v1),
                            ("endpointApplicationName", v2),
                            ("endpointDeviceInstanceId", v3),
                            ("endpointMachineName", v4), ("endpointFileName", v5),
                            ("endpointFilePath", v6), ("fileCreatedBy", v7),
                            ("fileModifiedBy", v8), ("endpointApplicationPath", v9),
                            ("endpointConnectionStatus", v10), ("fileAccessDate", v11)])
  else .ok []

/-- `get_common_incident_details(static_attributes, editable_attributes,
args, incident_type, isfetch)`: the context mapping of an incident's
detail attributes, evaluating the dict-literal values in source order
(so the first raising lookup wins), then merging the per-type details
when called from fetch. -/
def get_common_incident_details (static_attributes editable_attributes : PyDict)
    (args : PyDict) (incident_type : String) (isfetch : Bool) :
    Except PyErr PyDict :=
  let ime := assocGetD editable_attributes "infoMap" (.dict [])
  let ims := assocGetD static_attributes "infoMap" (.dict [])
  let groupsV := assocGetD editable_attributes "customAttributeGroups" (.list [])
  let idV := assocGetD static_attributes "incidentId" .none
  match pyValGet ims "creationDate" with
  | .error e => .error e
  | .ok creationV =>
  match pyValGet ims "policyId" with
  | .error e => .error e
  | .ok policyIdV =>
  match pyValGet ime "severityId" with
  | .error e => .error e
  | .ok sevIdV =>
  match pyArgToNumber sevIdV with
  | .error e => .error e
  | .ok sevNum =>
  let severityV := optStrVal (get_severity_name_by_id sevNum)
  match pyValGet ime "incidentStatusId" with
  | .error e => .error e
  | .ok statusV =>
  match pyValGet ims "detectionDate" with
  | .error e => .error e
  | .ok detV =>
  match pyValGet ims "senderIPAddress" with
  | .error e => .error e
  | .ok sipV =>
  match pyValGet ims "endpointMachineIpAddress" with
  | .error e => .error e
  | .ok emiV =>
  match pyValGet ims "policyName" with
  | .error e => .error e
  | .ok pnV =>
  match pyValGet ime "dataOwnerEmail" with
  | .error e => .error e
  | .ok doeV =>
  match pyValGet ime "dataOwnerName" with
  | .error e => .error e
  | .ok donV =>
  match pyValGet ims "policyVersion" with
  | .error e => .error e
  | .ok pvV =>
  match pyValGet ims "messageSource" with
  | .error e => .error e
  | .ok msV =>
  match pyValGet ims "messageType" with
  | .error e => .error e
  | .ok mtV =>
  match pyValGet ims "detectionServerName" with
  | .error e => .error e
  | .ok dsnV =>
  match pyValGet ims "policyGroupName" with
  | .error e => .error e
  | .ok pgnV =>
  match pyValGet ims "matchCount" with
  | .error e => .error e
  | .ok mcV =>
  match pyValGet ime "preventOrProtectStatusId" with
  | .error e => .error e
  | .ok popV =>
  match parse_custom_attribute groupsV args with
  | .error e => .error e
  | .ok customAttrs =>
  let incident_details := assignParams
    [("ID", idV), ("creationDate", creationV), ("policyId", policyIdV),
     ("severity", severityV), ("incidentStatusId", statusV),
     ("detectionDate", detV), ("senderIPAddress", sipV),
     ("endpointMachineIpAddress", emiV), ("policyName", pnV),
     ("dataOwnerEmail", doeV), ("dataOwnerName", donV),
     ("policyVersion", pvV), ("messageSource", msV), ("messageType", mtV),
     ("detectionServerName", dsnV), ("policyGroupName", pgnV),
     ("matchCount", mcV), ("preventOrProtectStatusId", popV),
     ("customAttributeGroup", .list customAttrs)]
  if isfetch then
    match get_details_for_specific_type incident_type ims with
    | .error e => .error e
    | .ok additional => .ok (assignParams (dictUpdate incident_details additional))
  else .ok (assignParams incident_details)

/-- `get_details_unauthorized_incident(incident_data)`: the partial
record built for 401-unauthorized incidents from the list-response
fields, keeping only truthy values (`assign_params` plus the trailing
`if val` comprehension) and always carrying the notice message.
`messageType` is read by the source but is not among the fields the
list request selects (`messageTypeId` is), so it is always absent. -/
def get_details_unauthorized_incident (incident_data : IncidentData) : PyDict :=
  (assignParams
    [("ID", optIntVal incident_data.incidentId),
     ("creationDate", .str incident_data.creationDate),
     ("policyId", optIntVal incident_data.policyId),
     ("severity", optStrVal (get_severity_name_by_id incident_data.severityId)),
     ("incidentStatusId", optIntVal incident_data.incidentStatusId),
     ("detectionDate", optStrVal incident_data.detectionDate),
     ("policyVersion", optIntVal incident_data.policyVersion),
     ("messageSource", optStrVal incident_data.messageSource),
     ("messageType", .none),
     ("matchCount", optIntVal incident_data.matchCount),
     ("errorMessage", .str "Notice: Incident contains partial data only")]).filter
    (fun p => pyTruthy p.2)

/-- One entry of `build_custom_attributes_update`'s result:
`{"columnIndex": int(index), "value": value}`. -/
structure CustomAttrUpdate where
  columnIndex : Int
  value : String
deriving DecidableEq

/-- Auxiliary for `pySplitChar`. -/
def splitCharAux (sep : Char) : List Char → List (List Char)
  | [] => [[]]
  | c :: cs =>
    match splitCharAux sep cs with
    | [] => if c = sep then [[], []] else [[c]]
    | g :: gs => if c = sep then [] :: g :: gs else (c :: g) :: gs

/-- Python `s.split(sep)` for a one-character separator. -/
def pySplitChar (sep : Char) (s : String) : List String :=
  (splitCharAux sep s.data).map String.mk

/-- The body of `build_custom_attributes_update`'s loop, for one
attribute string. -/
def buildOneCustomAttr (attr : String) : Except PyErr CustomAttrUpdate :=
  match pySplitChar ':' attr with
  | [attribute_index, attribute_value] =>
    if pyStrIsDigit attribute_index then
      .ok { columnIndex := (digitsToNat attribute_index : Int),
            value := attribute_value }
    else .error (.demisto "Error: The attribute index must be an integer.")
  | _ => .error (.demisto "Error: custom_attributes argument format is \x7bcolumnIndex\x7d:\x7bnewValue\x7d. E.g: 1:test")

/-- `build_custom_attributes_update(custom_attributes)`: each string
must split on `:` into exactly an all-digit index and a value. -/
def build_custom_attributes_update (custom_attributes : List String) :
    Except PyErr (List CustomAttrUpdate) :=
  mapME buildOneCustomAttr custom_attributes

/-- `get_incident_details_fetch(client, incident)`: fetches static and
editable attributes and maps them; a `DemistoException` containing
`'401'` yields the partial-data record, any other exception is
re-raised. -/
def get_incident_details_fetch (c : Client) (incident : IncidentData) :
    Except PyErr PyDict :=
  let body : Except PyErr PyDict :=
    match c.httpStatic incident.incidentId with
    | .error e => .error e
    | .ok static_attributes =>
      match c.httpEditable incident.incidentId with
      | .error e => .error e
      | .ok editable_attributes =>
        get_common_incident_details static_attributes editable_attributes
          [("custom_attributes", .str "all")] (incident.messageSource.getD "") true
  match body with
  | .ok d => .ok d
  | .error (.demisto m) =>
    if strContains m "401" then .ok (get_details_unauthorized_incident incident)
    else .error (.demisto m)
  | .error e => .error e

/-- `is_incident_already_fetched_in_previous_fetch(last_update_time,
incident_creation_date)`: `last_update_time and last_update_time >=
incident_creation_date` (Python string comparison; a `None` or empty
watermark is falsy and short-circuits). -/
def is_incident_already_fetched_in_previous_fetch (last_update_time : Option String)
    (incident_creation_date : String) : Bool :=
  match last_update_time with
  | Option.none => false
  | some s => if s = "" then false else pyStrLeb incident_creation_date.data s.data

/-- One incident record handed to the host platform by fetch.
`rawDetails` carries the dict that the source serializes into
`rawJSON` (JSON serialization itself is not modelled). -/
structure XsoarIncident where
  rawDetails : PyDict
  name : String
  occurred : String

/-- Stable insertion into a name-sorted list (Python string order). -/
def insertByName (x : XsoarIncident) : List XsoarIncident → List XsoarIncident
  | [] => [x]
  | y :: ys => if pyStrLeb x.name.data y.name.data then x :: y :: ys else y :: insertByName x ys

/-- `sorted(incidents, key=lambda d: d['name'])`: a stable sort on the
incident name. -/
def sortByName : List XsoarIncident → List XsoarIncident
  | [] => []
  | x :: xs => insertByName x (sortByName xs)

/-- The per-incident loop of `fetch_incidents`: skips records at or
before the watermark, builds an XSOAR incident for the rest, and moves
the watermark to the creation time of any delivered record that has the
creation time of the last record of the page (`incidents_data_list[-1]`,
precomputed as `lastCd`). -/
def fetchLoop (c : Client) (dp : String → Option String) (lastCd : String) :
    List IncidentData → List XsoarIncident → Option String →
    Except PyErr (List XsoarIncident × Option String)
  | [], incidents, last_update_time => .ok (incidents, last_update_time)
  | d :: ds, incidents, last_update_time =>
    if is_incident_already_fetched_in_previous_fetch last_update_time d.creationDate then
      fetchLoop c dp lastCd ds incidents last_update_time
    else
      match get_incident_details_fetch c d with
      | .error e => .error e
      | .ok incident_details =>
        match parse_creation_date dp d.creationDate with
        | .error e => .error e
        | .ok occurred =>
          let incident : XsoarIncident :=
            { rawDetails := incident_details,
              name := "Symantec DLP Incident ID " ++ pyOptIntRepr d.incidentId,
              occurred := occurred }
          let last_update_time' :=
            if d.creationDate = lastCd then some d.creationDate else last_update_time
          fetchLoop c dp lastCd ds (incidents ++ [incident]) last_update_time'

/-- The `last_run` dict: `Option.none` is the empty (falsy) dict of a
first run; `some v` is a dict whose `'last_incident_creation_time'`
value is `v` (`v = Option.none` when the key is absent or `None`). -/
abbrev LastRun := Option (Option String)

/-- The starting watermark of one fetch call: the previous run's stored
value when `last_run` is truthy, otherwise the parsed first-fetch time. -/
def computeInitialLut (dp : String → Option String) (fetch_time : String)
    (last_run : LastRun) : Except PyErr (Option String) :=
  match last_run with
  | some v => .ok v
  | Option.none =>
    match parse_creation_date dp fetch_time with
    | .error e => .error e
    | .ok s => .ok (some s)

/-- The outcome of `fetch_incidents`: a test run returns `None` without
storing anything; a normal run calls
`demisto.setLastRun({'last_incident_creation_time': stored})` and
returns the name-sorted incidents. -/
inductive FetchOutcome where
  | test
  | normal (stored : Option String) (incidents : List XsoarIncident)

/-- `fetch_incidents(client, fetch_time, fetch_limit, last_run,
incident_types, incident_status_id, incident_severities, is_test)`. -/
def fetch_incidents (c : Client) (dp : String → Option String) (fetch_time : String)
    (fetch_limit : Int) (last_run : LastRun) (incident_types : List String)
    (incident_status_id : List String) (incident_severities : List String)
    (is_test : Bool) : Except PyErr FetchOutcome :=
  match mapME sevLookup incident_severities with
  | .error e => .error e
  | .ok sevs =>
  match mapME typeLookup incident_types with
  | .error e => .error e
  | .ok typs =>
  match computeInitialLut dp fetch_time last_run with
  | .error e => .error e
  | .ok last_update_time =>
  match get_incidents_request c last_update_time incident_status_id sevs typs
      fetch_limit true with
  | .error e => .error e
  | .ok resp =>
  let incidents_data_list := resp.incidents
  let lastCd := match incidents_data_list.getLast? with
    | some d => d.creationDate
    | Option.none => ""
  match fetchLoop c dp lastCd incidents_data_list [] last_update_time with
  | .error e => .error e
  | .ok (incidents, lutF) =>
  if is_test then .ok .test
  else .ok (.normal lutF (sortByName incidents))

/-- `test_module(client, params, ...)`: runs a throwaway fetch when
`isFetch` is set, else a plain list request; `Forbidden`/`Unauthorized`
`DemistoException`s become the credentials message, success is `'ok'`,
anything else is re-raised. -/
def test_module (c : Client) (dp : String → Option String) (isFetch : Bool)
    (fetch_time : String) (fetch_limit : Int) (incident_types : List String)
    (incident_status_id : List String) (incident_severities : List String) :
    Except PyErr String :=
  let attempt : Except PyErr Unit :=
    if isFetch then
      match fetch_incidents c dp fetch_time fetch_limit Option.none incident_types
          incident_status_id incident_severities true with
      | .error e => .error e
      | .ok _ => .ok ()
    else
      match get_incidents_request c Option.none [] [] [] MAX_PAGE_SIZE false with
      | .error e => .error e
      | .ok _ => .ok ()
  match attempt with
  | .ok _ => .ok "ok"
  | .error (.demisto m) =>
    if strContains m "Forbidden" || strContains m "Unauthorized" then
      .ok "Authorization Error: make sure username and password are correctly set"
    else .error (.demisto m)
  | .error e => .error e

/-- `empty(x)` from `remove_empty_elements`. -/
def isEmptyElem : PyVal → Bool
  | .none => true
  | .list [] => true
  | .dict [] => true
  | _ => false

/-- `remove_empty_elements(d)` from CommonServerPython: recursively
drops `None`/`{}`/`[]` members of dicts and lists. -/
def removeEmptyVal : PyVal → PyVal
  | .list vs => .list ((vs.attach.map (fun x => removeEmptyVal x.1)).filter
      (fun v => !isEmptyElem v))
  | .dict ps => .dict ((ps.attach.map (fun x => (x.1.1, removeEmptyVal x.1.2))).filter
      (fun p => !isEmptyElem p.2))
  | v => v
decreasing_by
  · have := List.sizeOf_lt_of_mem x.2
    simp only [PyVal.list.sizeOf_spec]
    omega
  · have h1 := List.sizeOf_lt_of_mem x.2
    have h2 : sizeOf x.1.2 < sizeOf x.1 := by
      obtain ⟨a, b⟩ := x.1
      simp only [Prod.mk.sizeOf_spec]
      omega
    simp only [PyVal.dict.sizeOf_spec]
    omega

/-- `get_readable_output_incident_history(incident_history_list)`. -/
def get_readable_output_incident_history (incident_history_list : List PyDict) :
    List PyDict :=
  incident_history_list.map (fun ih => assignParams
    [("History Date", assocGetD ih "incidentHistoryDate" .none),
     ("Incident History Action", assocGetD ih "incidentHistoryAction" .none),
     ("DLP User Name", assocGetD ih "dlpUserName" .none)])

/-- The body of `get_context_incident_history`'s loop: the three
`pop` calls on one history entry. -/
def historyPopChain (ih : PyDict) : Except PyErr PyDict :=
  match dictPop ih "incidentId" with
  | .error e => .error e
  | .ok ih1 =>
    match dictPop ih1 "incidentHistoryActionI18nKey" with
    | .error e => .error e
    | .ok ih2 => dictPop ih2 "internationalized"

/-- `get_context_incident_history(incident_history_list)`: reads the
incident id from the first entry (raising `IndexError` on an empty
list), then pops `incidentId`, `incidentHistoryActionI18nKey` and
`internationalized` from every entry (raising `KeyError` when one is
absent). -/
def get_context_incident_history (incident_history_list : List PyDict) :
    Except PyErr (List PyDict) :=
  match incident_history_list with
  | [] => .error .indexError
  | e0 :: _ =>
    match pyArgToNumber (assocGetD e0 "incidentId" .none) with
    | .error e => .error e
    | .ok incident_id =>
      match mapME historyPopChain incident_history_list with
      | .error e => .error e
      | .ok cleaned =>
        .ok [[("ID", optIntVal incident_id),
              ("incidentHistory", .list (cleaned.map PyVal.dict))]]

/-- `incident_history_result[:limit]` (`limit` is an `arg_to_number`
result; a `None` limit slices to the end). -/
def sliceToLimit (l : List α) : Option Int → List α
  | Option.none => l
  | some n => pySlice 0 n l

/-- `get_incident_history_command(client, args)`. -/
def get_incident_history_command (c : Client) (args : PyDict) :
    Except PyErr CommandResults :=
  match pyArgToNumber (assocGetD args "incident_id" .none) with
  | .error e => .error e
  | .ok incident_id =>
    match pyArgToNumber (assocGetD args "limit" (.int 50)) with
    | .error e => .error e
    | .ok lim =>
      match c.httpHistory incident_id with
      | .error e => .error e
      | .ok incident_history_result =>
        let truncated := sliceToLimit incident_history_result lim
        let hr := get_readable_output_incident_history truncated
        match get_context_incident_history truncated with
        | .error e => .error e
        | .ok ctx =>
          .ok { outputs := removeEmptyVal (.list (ctx.map PyVal.dict)),
                readable := .list (hr.map PyVal.dict) }

theorem pyStrLeb_refl : ∀ (a : List Char), pyStrLeb a a = true := by
  intro a
  induction a with
  | nil => rfl
  | cons x as ih =>
    simp only [pyStrLeb, lt_irrefl, if_false]
    exact ih

theorem pyStrLeb_trans : ∀ (a b c : List Char),
    pyStrLeb a b = true → pyStrLeb b c = true → pyStrLeb a c = true := by
  intro a
  induction a with
  | nil => intro b c _ _; rfl
  | cons x as ih =>
    intro b c hab hbc
    cases b with
    | nil => simp [pyStrLeb] at hab
    | cons y bs =>
      cases c with
      | nil => simp [pyStrLeb] at hbc
      | cons z cs =>
        simp only [pyStrLeb] at hab hbc ⊢
        by_cases h1 : x < y
        · by_cases h2 : y < z
          · rw [if_pos (lt_trans h1 h2)]
          · by_cases h3 : z < y
            · rw [if_neg h2, if_pos h3] at hbc
              exact absurd hbc (by simp)
            · have hyz : y = z := le_antisymm (not_lt.mp h3) (not_lt.mp h2)
              subst hyz
              rw [if_pos h1]
        · by_cases h1' : y < x
          · rw [if_neg h1, if_pos h1'] at hab
            exact absurd hab (by simp)
          · have hxy : x = y := le_antisymm (not_lt.mp h1') (not_lt.mp h1)
            subst hxy
            rw [if_neg h1, if_neg h1'] at hab
            by_cases h2 : x < z
            · rw [if_pos h2]
            · by_cases h3 : z < x
              · rw [if_neg h2, if_pos h3] at hbc
                exact absurd hbc (by simp)
              · have hxz : x = z := le_antisymm (not_lt.mp h3) (not_lt.mp h2)
                subst hxz
                rw [if_neg h2, if_neg h3] at hbc ⊢
                exact ih bs cs hab hbc

theorem pyStrLeb_total : ∀ (a b : List Char),
    pyStrLeb a b = true ∨ pyStrLeb b a = true := by
  intro a
  induction a with
  | nil => intro b; left; rfl
  | cons x as ih =>
    intro b
    cases b with
    | nil => right; rfl
    | cons y bs =>
      simp only [pyStrLeb]
      by_cases h1 : x < y
      · left
        rw [if_pos h1]
      · by_cases h2 : y < x
        · right
          rw [if_pos h2]
        · have hxy : x = y := le_antisymm (not_lt.mp h2) (not_lt.mp h1)
          subst hxy
          rw [if_neg h1, if_neg h1, if_neg h2, if_neg h2]
          exact ih bs

theorem pyStrLeb_antisymm : ∀ (a b : List Char),
    pyStrLeb a b = true → pyStrLeb b a = true → a = b := by
  intro a
  induction a with
  | nil =>
    intro b _ hba
    cases b with
    | nil => rfl
    | cons y bs => simp [pyStrLeb] at hba
  | cons x as ih =>
    intro b hab hba
    cases b with
    | nil => simp [pyStrLeb] at hab
    | cons y bs =>
      simp only [pyStrLeb] at hab hba
      by_cases h1 : x < y
      · rw [if_neg (lt_asymm h1), if_pos h1] at hba
        exact absurd hba (by simp)
      · by_cases h2 : y < x
        · rw [if_neg h1, if_pos h2] at hab
          exact absurd hab (by simp)
        · have hxy : x = y := le_antisymm (not_lt.mp h2) (not_lt.mp h1)
          subst hxy
          rw [if_neg h1, if_neg h2] at hab hba
          rw [ih bs hab hba]

/-- The order on watermark values: `None` below everything, strings by
Python string comparison. -/
def watermarkLe : Option String → Option String → Prop
  | Option.none, _ => True
  | some _, Option.none => False
  | some a, some b => pyStrLe a b

theorem watermarkLe_refl : ∀ (a : Option String), watermarkLe a a := by
  intro a
  cases a with
  | none => trivial
  | some s => exact pyStrLeb_refl s.data

theorem watermarkLe_trans : ∀ (a b c : Option String),
    watermarkLe a b → watermarkLe b c → watermarkLe a c := by
  intro a b c hab hbc
  cases a with
  | none => trivial
  | some x =>
    cases b with
    | none => exact absurd hab (by simp [watermarkLe])
    | some y =>
      cases c with
      | none => exact absurd hbc (by simp [watermarkLe])
      | some z => exact pyStrLeb_trans x.data y.data z.data hab hbc

theorem notFetched_watermarkLe (lut : Option String) (cd : String)
    (h : is_incident_already_fetched_in_previous_fetch lut cd = false) :
    watermarkLe lut (some cd) := by
  cases lut with
  | none => trivial
  | some s =>
    simp only [is_incident_already_fetched_in_previous_fetch] at h
    by_cases hs : s = ""
    · subst hs
      show pyStrLeb "".data cd.data = true
      rfl
    · rw [if_neg hs] at h
      show pyStrLe s cd
      rcases pyStrLeb_total s.data cd.data with h2 | h2
      · exact h2
      · rw [h] at h2
        exact absurd h2 (by simp)

theorem fetchLoop_watermark (c : Client) (dp : String → Option String) (lastCd : String) :
    ∀ (ds : List IncidentData) (incs : List XsoarIncident) (lut : Option String)
      (res : List XsoarIncident × Option String),
      fetchLoop c dp lastCd ds incs lut = .ok res → watermarkLe lut res.2 := by
  intro ds
  induction ds with
  | nil =>
    intro incs lut res h
    simp only [fetchLoop, Except.ok.injEq] at h
    rw [← h]
    exact watermarkLe_refl lut
  | cons d ds ih =>
    intro incs lut res h
    by_cases hskip : is_incident_already_fetched_in_previous_fetch lut d.creationDate = true
    · simp only [fetchLoop, hskip, if_true] at h
      exact ih incs lut res h
    · rw [Bool.not_eq_true] at hskip
      simp only [fetchLoop, hskip, Bool.false_eq_true, if_false] at h
      cases hdet : get_incident_details_fetch c d with
      | error e =>
        rw [hdet] at h
        exact absurd h (by simp)
      | ok details =>
        rw [hdet] at h
        cases hocc : parse_creation_date dp d.creationDate with
        | error e =>
          rw [hocc] at h
          exact absurd h (by simp)
        | ok occurred =>
          rw [hocc] at h
          simp only at h
          have hstep : watermarkLe lut
              (if d.creationDate = lastCd then some d.creationDate else lut) := by
            by_cases hlast : d.creationDate = lastCd
            · rw [if_pos hlast]
              exact notFetched_watermarkLe lut d.creationDate hskip
            · rw [if_neg hlast]
              exact watermarkLe_refl lut
          exact watermarkLe_trans _ _ _ hstep (ih _ _ res h)

theorem mem_insertByName (a x : XsoarIncident) (l : List XsoarIncident) :
    a ∈ insertByName x l ↔ a = x ∨ a ∈ l := by
  induction l with
  | nil => simp [insertByName]
  | cons y ys ih =>
    simp only [insertByName]
    by_cases h : pyStrLeb x.name.data y.name.data = true
    · rw [if_pos h]
      simp
    · rw [if_neg h]
      simp only [List.mem_cons, ih]
      tauto

theorem mem_sortByName (a : XsoarIncident) (l : List XsoarIncident) :
    a ∈ sortByName l ↔ a ∈ l := by
  induction l with
  | nil => simp [sortByName]
  | cons x xs ih =>
    simp only [sortByName, mem_insertByName, ih, List.mem_cons]

theorem fetch_run_destruct (c : Client) (dp : String → Option String)
    (fetch_time : String) (fetch_limit : Int) (last_run : LastRun)
    (incident_types incident_status_id incident_severities : List String)
    (stored : Option String) (incs : List XsoarIncident)
    (hrun : fetch_incidents c dp fetch_time fetch_limit last_run incident_types
      incident_status_id incident_severities false = .ok (.normal stored incs)) :
    ∃ sevs typs lut0 resp incidents,
      mapME sevLookup incident_severities = .ok sevs ∧
      mapME typeLookup incident_types = .ok typs ∧
      computeInitialLut dp fetch_time last_run = .ok lut0 ∧
      get_incidents_request c lut0 incident_status_id sevs typs fetch_limit true = .ok resp ∧
      fetchLoop c dp
        (match resp.incidents.getLast? with
         | some d => d.creationDate
         | Option.none => "") resp.incidents [] lut0 = .ok (incidents, stored) ∧
      incs = sortByName incidents := by
  simp only [fetch_incidents] at hrun
  cases hsev : mapME sevLookup incident_severities with
  | error e => rw [hsev] at hrun; exact absurd hrun (by simp)
  | ok sevs =>
  rw [hsev] at hrun
  dsimp only at hrun
  cases htyp : mapME typeLookup incident_types with
  | error e => rw [htyp] at hrun; exact absurd hrun (by simp)
  | ok typs =>
  rw [htyp] at hrun
  dsimp only at hrun
  cases hlut : computeInitialLut dp fetch_time last_run with
  | error e => rw [hlut] at hrun; exact absurd hrun (by simp)
  | ok lut0 =>
  rw [hlut] at hrun
  dsimp only at hrun
  cases hresp : get_incidents_request c lut0 incident_status_id sevs typs fetch_limit true with
  | error e => rw [hresp] at hrun; exact absurd hrun (by simp)
  | ok resp =>
  rw [hresp] at hrun
  dsimp only at hrun
  cases hloop : fetchLoop c dp
      (match resp.incidents.getLast? with
       | some d => d.creationDate
       | Option.none => "") resp.incidents [] lut0 with
  | error e => rw [hloop] at hrun; exact absurd hrun (by simp)
  | ok p =>
  obtain ⟨incidents, lutF⟩ := p
  rw [hloop] at hrun
  simp only [Bool.false_eq_true, if_false, Except.ok.injEq, FetchOutcome.normal.injEq] at hrun
  obtain ⟨h1, h2⟩ := hrun
  exact ⟨sevs, typs, lut0, resp, incidents, rfl, rfl, rfl, hresp,
    by rw [hloop, h1], h2.symm⟩

/-- C1 — The watermark is monotonically non-decreasing within a single
polling series: for every starting `last_run` state and every incident
list returned by the vendor API, the value `fetch_incidents` stores
under `'last_incident_creation_time'` at the end of a (non-test) call
is greater than or equal to, as a creation timestamp, the
`last_update_time` the call started from (the previous run's stored
watermark, or the parsed first-fetch time on the first run). -/
theorem claim_C1_watermark_monotone (c : Client) (dp : String → Option String)
    (fetch_time : String) (fetch_limit : Int) (last_run : LastRun)
    (incident_types incident_status_id incident_severities : List String)
    (w stored : Option String) (incs : List XsoarIncident)
    (hw : computeInitialLut dp fetch_time last_run = .ok w)
    (hrun : fetch_incidents c dp fetch_time fetch_limit last_run incident_types
      incident_status_id incident_severities false = .ok (.normal stored incs)) :
    watermarkLe w stored := by
  obtain ⟨sevs, typs, lut0, resp, incidents, _, _, hlut, _, hloop, _⟩ :=
    fetch_run_destruct c dp fetch_time fetch_limit last_run incident_types
      incident_status_id incident_severities stored incs hrun
  rw [hw] at hlut
  cases hlut
  exact fetchLoop_watermark c dp _ resp.incidents [] w (incidents, stored) hloop

theorem pyStrLeb_nil_right : ∀ (l : List Char), pyStrLeb l [] = true → l = [] := by
  intro l h
  cases l with
  | nil => rfl
  | cons c cs => simp [pyStrLeb] at h

theorem string_data_ne_of_ne_empty {w : String} (h : w ≠ "") : w.data ≠ [] := by
  intro hd
  apply h
  cases w with
  | mk l => exact congrArg String.mk hd

theorem fetchLoop_delivered (c : Client) (dp : String → Option String) (lastCd : String)
    (w : String) (hw : w ≠ "") :
    ∀ (ds : List IncidentData) (incs incs' : List XsoarIncident) (lut lut' : Option String),
      fetchLoop c dp lastCd ds incs lut = .ok (incs', lut') →
      (∃ s, lut = some s ∧ s ≠ "" ∧ pyStrLe w s) →
      ∀ inc ∈ incs', inc ∈ incs ∨
        ∃ d ∈ ds, pyStrLt w d.creationDate ∧
          get_incident_details_fetch c d = .ok inc.rawDetails ∧
          parse_creation_date dp d.creationDate = .ok inc.occurred ∧
          inc.name = "Symantec DLP Incident ID " ++ pyOptIntRepr d.incidentId := by
  intro ds
  induction ds with
  | nil =>
    intro incs incs' lut lut' h _ inc hinc
    simp only [fetchLoop, Except.ok.injEq, Prod.mk.injEq] at h
    left
    rw [h.1]
    exact hinc
  | cons d ds ih =>
    intro incs incs' lut lut' h hinv inc hinc
    obtain ⟨s, hlut, hs, hws⟩ := hinv
    subst hlut
    by_cases hskip : is_incident_already_fetched_in_previous_fetch (some s) d.creationDate = true
    · simp only [fetchLoop, hskip, if_true] at h
      rcases ih incs incs' (some s) lut' h ⟨s, rfl, hs, hws⟩ inc hinc with h1 | ⟨d', hd', hrest⟩
      · left; exact h1
      · right; exact ⟨d', List.mem_cons_of_mem d hd', hrest⟩
    · rw [Bool.not_eq_true] at hskip
      simp only [fetchLoop, hskip, Bool.false_eq_true, if_false] at h
      have hleb : pyStrLeb d.creationDate.data s.data = false := by
        simpa only [is_incident_already_fetched_in_previous_fetch, if_neg hs] using hskip
      have hscd : pyStrLe s d.creationDate := by
        rcases pyStrLeb_total s.data d.creationDate.data with h2 | h2
        · exact h2
        · rw [hleb] at h2
          exact absurd h2 (by simp)
      have hsne : s ≠ d.creationDate := by
        intro he
        subst he
        rw [pyStrLeb_refl] at hleb
        exact absurd hleb (by simp)
      have hwcd : pyStrLe w d.creationDate := pyStrLeb_trans _ _ _ hws hscd
      have hwne : w ≠ d.creationDate := by
        intro he
        rw [he] at hws
        rw [hws] at hleb
        exact absurd hleb (by simp)
      have hcdne : d.creationDate ≠ "" := by
        intro he
        rw [he] at hwcd
        exact hw (by
          cases w with
          | mk l => exact congrArg String.mk (pyStrLeb_nil_right l hwcd))
      cases hdet : get_incident_details_fetch c d with
      | error e =>
        rw [hdet] at h
        exact absurd h (by simp)
      | ok details =>
        rw [hdet] at h
        cases hocc : parse_creation_date dp d.creationDate with
        | error e =>
          rw [hocc] at h
          exact absurd h (by simp)
        | ok occurred =>
          rw [hocc] at h
          simp only at h
          have hinv' : ∃ t, (if d.creationDate = lastCd then some d.creationDate
              else some s) = some t ∧ t ≠ "" ∧ pyStrLe w t := by
            by_cases hlast : d.creationDate = lastCd
            · rw [if_pos hlast]
              exact ⟨d.creationDate, rfl, hcdne, hwcd⟩
            · rw [if_neg hlast]
              exact ⟨s, rfl, hs, hws⟩
          rcases ih _ incs' _ lut' h hinv' inc hinc with h1 | ⟨d', hd', hrest⟩
          · rcases List.mem_append.mp h1 with h2 | h2
            · left; exact h2
            · right
              refine ⟨d, List.mem_cons_self d ds, ⟨hwcd, hwne⟩, ?_, ?_, ?_⟩
              · rw [List.mem_singleton.mp h2]
                exact hdet
              · rw [List.mem_singleton.mp h2]
                exact hocc
              · rw [List.mem_singleton.mp h2]
          · right; exact ⟨d', List.mem_cons_of_mem d hd', hrest⟩

/-- C2 — The watermark excludes already-delivered records: with a
non-empty starting watermark `w`, every incident `fetch_incidents`
returns arises from a vendor record whose `creationDate` is strictly
greater (in Python string order) than `w`; records at or below `w` are
skipped and never delivered. -/
theorem claim_C2_watermark_excludes (c : Client) (dp : String → Option String)
    (fetch_time : String) (fetch_limit : Int) (last_run : LastRun)
    (incident_types incident_status_id incident_severities : List String)
    (w : String) (stored : Option String) (incs : List XsoarIncident)
    (sevs : List Int) (typs : List String) (resp : IncidentsResponse)
    (hsev : mapME sevLookup incident_severities = .ok sevs)
    (htyp : mapME typeLookup incident_types = .ok typs)
    (hw : computeInitialLut dp fetch_time last_run = .ok (some w))
    (hwne : w ≠ "")
    (hresp : get_incidents_request c (some w) incident_status_id sevs typs
      fetch_limit true = .ok resp)
    (hrun : fetch_incidents c dp fetch_time fetch_limit last_run incident_types
      incident_status_id incident_severities false = .ok (.normal stored incs)) :
    ∀ inc ∈ incs, ∃ d ∈ resp.incidents, pyStrLt w d.creationDate ∧
      get_incident_details_fetch c d = .ok inc.rawDetails ∧
      parse_creation_date dp d.creationDate = .ok inc.occurred ∧
      inc.name = "Symantec DLP Incident ID " ++ pyOptIntRepr d.incidentId := by
  intro inc hinc
  obtain ⟨sevs', typs', lut0, resp', incidents, hsev', htyp', hlut', hresp', hloop, hsort⟩ :=
    fetch_run_destruct c dp fetch_time fetch_limit last_run incident_types
      incident_status_id incident_severities stored incs hrun
  rw [hsev] at hsev'
  cases hsev'
  rw [htyp] at htyp'
  cases htyp'
  rw [hw] at hlut'
  cases hlut'
  rw [hresp] at hresp'
  cases hresp'
  rw [hsort] at hinc
  have hmem := (mem_sortByName inc incidents).mp hinc
  rcases fetchLoop_delivered c dp _ w hwne resp.incidents [] incidents (some w) stored
      hloop ⟨w, rfl, hwne, pyStrLeb_refl w.data⟩ inc hmem with h1 | h2
  · exact absurd h1 (List.not_mem_nil inc)
  · exact h2

/-- Identity date parser used by concrete runs (a `dateparser` that
returns every string unchanged). -/
def dpId : String → Option String := fun s => some s

/-- A concrete vendor record used by the concrete runs. -/
def wIncident : IncidentData :=
  { incidentId := some 1, incidentStatusId := some 1, creationDate := "2022",
    detectionDate := Option.none, severityId := some 2,
    messageSource := some "NETWORK", messageTypeId := Option.none,
    policyVersion := Option.none, policyId := Option.none,
    matchCount := Option.none, detectionServerId := Option.none }

/-- A concrete client: one listed incident whose detail requests are
rejected with HTTP 401. -/
def wClient : Client :=
  { httpIncidents := fun _ => .ok ⟨[wIncident]⟩,
    httpStatic := fun _ => .error (.demisto "Error in API call [401] - Unauthorized"),
    httpEditable := fun _ => .error (.demisto "Error in API call [401] - Unauthorized"),
    httpHistory := fun _ => .ok [] }

/-- The incident `wClient`'s fetch run delivers (the partial-data
record, since the detail requests return 401). -/
def wDelivered : XsoarIncident :=
  { rawDetails := [("ID", .int 1), ("creationDate", .str "2022"),
      ("severity", .str "Medium"), ("incidentStatusId", .int 1),
      ("messageSource", .str "NETWORK"),
      ("errorMessage", .str "Notice: Incident contains partial data only")],
    name := "Symantec DLP Incident ID 1", occurred := "2022" }

theorem claim_C1_watermark_monotone_witness :
    watermarkLe (some "2021") (some "2022") :=
  claim_C1_watermark_monotone wClient dpId "3 days" 50 (some (some "2021"))
    [] [] [] (some "2021") (some "2022") [wDelivered] rfl rfl

theorem claim_C2_watermark_excludes_witness :
    pyStrLt "2021" wIncident.creationDate := by
  have h := claim_C2_watermark_excludes wClient dpId "3 days" 50 (some (some "2021"))
    [] [] [] "2021" (some "2022") [wDelivered] [] [] ⟨[wIncident]⟩ rfl rfl rfl
    (by decide) rfl rfl wDelivered (by simp)
  obtain ⟨d, hd, hlt, _⟩ := h
  have hde : d = wIncident := by simpa using hd
  rw [← hde]
  exact hlt

/-- A client whose incidents request returns an empty page. -/
def emptyClient : Client :=
  { httpIncidents := fun _ => .ok ⟨[]⟩,
    httpStatic := fun _ => .error (.other "unused"),
    httpEditable := fun _ => .error (.other "unused"),
    httpHistory := fun _ => .ok [] }

/-- C4 counterexample — a finished non-test `fetch_incidents` run can
store the empty string under `'last_incident_creation_time'` (empty
first-fetch time, empty page), and the request body a subsequent
invocation builds from that stored value contains no filter block at
all, hence no `creationDate`/`GT` filter: the claim's "which turns it
into a creationDate filter with operator GT" fails for this run. -/
theorem claim_C4_counterexample :
    fetch_incidents emptyClient dpId "" 50 Option.none [] [] [] false =
      .ok (.normal (some "") []) ∧
    (buildIncidentsBody (some "") [] [] [] 50 true).filter = Option.none :=
  ⟨rfl, rfl⟩

/-- C4 (amended) — The last successfully processed timestamp is stored
and reused: a finished non-test run stores `last_update_time`, a
subsequent invocation with that `last_run` reads back exactly the
stored value as its `creation_date` argument, and whenever the stored
value is a non-empty string the request body carries the
`creationDate`/`GT` filter built from it (an empty or `None` stored
value adds no `creationDate` filter). -/
theorem mem_ite_filter_singleton {f d : FilterDict} {c : Bool}
    (h : f ∈ (if c then [d] else [])) : f = d := by
  cases c with
  | false => simp at h
  | true => simpa using h

theorem buildIncidentsBody_no_creationDate (creation_date : Option String)
    (hcd : creation_date = Option.none ∨ creation_date = some "")
    (status_id : List String) (severity : List Int) (incident_type : List String)
    (limit : Int) (order_by : Bool) (fs : List FilterDict)
    (hfs : (buildIncidentsBody creation_date status_id severity incident_type limit
      order_by).filter = some fs) :
    ∀ f ∈ fs, f.operandOneName ≠ "creationDate" := by
  intro f hf
  rcases hcd with h | h <;>
  · subst h
    simp only [buildIncidentsBody, (show (("" : String) != "") = false from rfl),
      Bool.false_eq_true, if_false, Bool.false_or, List.nil_append] at hfs
    split at hfs
    · simp only [Option.some.injEq] at hfs
      subst hfs
      simp only [List.mem_append] at hf
      rcases hf with (hf | hf) | hf
      · rw [mem_ite_filter_singleton hf]
        exact (by decide : ("incidentStatusId" : String) ≠ "creationDate")
      · rw [mem_ite_filter_singleton hf]
        exact (by decide : ("severityId" : String) ≠ "creationDate")
      · rw [mem_ite_filter_singleton hf]
        exact (by decide : ("messageSource" : String) ≠ "creationDate")
    · exact absurd hfs (by simp)

theorem claim_C4_store_and_filter (c : Client) (dp : String → Option String)
    (fetch_time : String) (fetch_limit : Int) (last_run : LastRun)
    (incident_types incident_status_id incident_severities : List String)
    (stored : Option String) (incs : List XsoarIncident)
    (hrun : fetch_incidents c dp fetch_time fetch_limit last_run incident_types
      incident_status_id incident_severities false = .ok (.normal stored incs)) :
    computeInitialLut dp fetch_time (some stored) = .ok stored ∧
    (∀ s, stored = some s → s ≠ "" →
      ∀ (status_id : List String) (severity : List Int) (incident_type : List String)
        (limit : Int),
        ∃ fs, (buildIncidentsBody stored status_id severity incident_type
            limit true).filter = some fs ∧
          create_filter_dict "localDateTime" "creationDate" [.str s] "GT" ∈ fs) ∧
    ((stored = Option.none ∨ stored = some "") →
      ∀ (status_id : List String) (severity : List Int) (incident_type : List String)
        (limit : Int) (fs : List FilterDict),
        (buildIncidentsBody stored status_id severity incident_type
          limit true).filter = some fs →
        ∀ f ∈ fs, f.operandOneName ≠ "creationDate") := by
  refine ⟨rfl, ?_, ?_⟩
  intro s hs hsne status_id severity incident_type limit
  subst hs
  have hcd : (s != "") = true := by
    simp [bne_iff_ne, hsne]
  refine ⟨[create_filter_dict "localDateTime" "creationDate" [.str s] "GT"] ++
      ((if !status_id.isEmpty then
          [create_filter_dict "long" "incidentStatusId" (status_id.map PyVal.str) "IN"]
        else []) ++
        ((if !severity.isEmpty then
            [create_filter_dict "long" "severityId" (severity.map PyVal.int) "IN"]
          else []) ++
          (if !incident_type.isEmpty then
            [create_filter_dict "string" "messageSource" (incident_type.map PyVal.str) "IN"]
          else []))), ?_, ?_⟩
  · simp [buildIncidentsBody, hcd]
  · simp
  · intro hfalsy status_id severity incident_type limit fs hfs
    exact buildIncidentsBody_no_creationDate stored hfalsy status_id severity
      incident_type limit true fs hfs

theorem claim_C4_store_and_filter_witness :
    computeInitialLut dpId "3 days" (some (some "2022")) = .ok (some "2022") ∧
    (buildIncidentsBody (some "2022") [] [] [] 50 true).filter =
      some [create_filter_dict "localDateTime" "creationDate" [.str "2022"] "GT"] ∧
    (create_filter_dict "long" "incidentStatusId" [PyVal.str "1"] "IN").operandOneName ≠
      "creationDate" ∧
    (create_filter_dict "long" "incidentStatusId" [PyVal.str "2"] "IN").operandOneName ≠
      "creationDate" := by
  have h := claim_C4_store_and_filter wClient dpId "3 days" 50 (some (some "2021"))
    [] [] [] (some "2022") [wDelivered] rfl
  have h2 := h.2.1 "2022" rfl (by decide) [] [] [] 50
  have hemp := claim_C4_store_and_filter emptyClient dpId "" 50 Option.none
    [] [] [] (some "") [] rfl
  have h3 := hemp.2.2 (Or.inr rfl) ["1"] [] [] 50
    [create_filter_dict "long" "incidentStatusId" [PyVal.str "1"] "IN"] rfl
    (create_filter_dict "long" "incidentStatusId" [PyVal.str "1"] "IN") (by simp)
  have hnone := claim_C4_store_and_filter emptyClient dpId "3 days" 50 (some Option.none)
    [] [] [] Option.none [] rfl
  have h4 := hnone.2.2 (Or.inl rfl) ["2"] [] [] 50
    [create_filter_dict "long" "incidentStatusId" [PyVal.str "2"] "IN"] rfl
    (create_filter_dict "long" "incidentStatusId" [PyVal.str "2"] "IN") (by simp)
  exact ⟨h.1, rfl, h3, h4⟩

/-- C3 — During fetch, a `DemistoException` containing `'401'` from the
static- or editable-attribute request makes `get_incident_details_fetch`
return the `get_details_unauthorized_incident` record (which carries
`errorMessage` = `'Notice: Incident contains partial data only'`); any
other exception propagates unchanged. -/
theorem claim_C3_details_fetch_error_mapping (c : Client) (incident : IncidentData)
    (e : PyErr)
    (herr : c.httpStatic incident.incidentId = .error e ∨
      (∃ sa, c.httpStatic incident.incidentId = .ok sa ∧
        c.httpEditable incident.incidentId = .error e)) :
    ((∃ m, e = .demisto m ∧ strContains m "401" = true) →
      get_incident_details_fetch c incident =
        .ok (get_details_unauthorized_incident incident)) ∧
    ((∀ m, e = .demisto m → strContains m "401" = false) →
      get_incident_details_fetch c incident = .error e) ∧
    ("errorMessage", PyVal.str "Notice: Incident contains partial data only") ∈
      get_details_unauthorized_incident incident := by
  refine ⟨?_, ?_, ?_⟩
  · rintro ⟨m, rfl, h401⟩
    rcases herr with h | ⟨sa, hsa, hed⟩
    · simp [get_incident_details_fetch, h, h401]
    · simp [get_incident_details_fetch, hsa, hed, h401]
  · intro hno
    rcases herr with h | ⟨sa, hsa, hed⟩
    · cases e with
      | demisto m => simp [get_incident_details_fetch, h, hno m rfl]
      | valueError m => simp [get_incident_details_fetch, h]
      | typeError m => simp [get_incident_details_fetch, h]
      | keyError k => simp [get_incident_details_fetch, h]
      | indexError => simp [get_incident_details_fetch, h]
      | other m => simp [get_incident_details_fetch, h]
    · cases e with
      | demisto m => simp [get_incident_details_fetch, hsa, hed, hno m rfl]
      | valueError m => simp [get_incident_details_fetch, hsa, hed]
      | typeError m => simp [get_incident_details_fetch, hsa, hed]
      | keyError k => simp [get_incident_details_fetch, hsa, hed]
      | indexError => simp [get_incident_details_fetch, hsa, hed]
      | other m => simp [get_incident_details_fetch, hsa, hed]
  · simp [get_details_unauthorized_incident, assignParams, List.mem_filter,
      assignParamsIgnored, pyTruthy]

theorem claim_C3_details_fetch_error_mapping_witness :
    get_incident_details_fetch wClient wIncident =
      .ok (get_details_unauthorized_incident wIncident) :=
  (claim_C3_details_fetch_error_mapping wClient wIncident
    (.demisto "Error in API call [401] - Unauthorized") (Or.inl rfl)).1
    ⟨"Error in API call [401] - Unauthorized", rfl, by decide⟩

/-- A client whose incidents request is rejected as unauthorized. -/
def authFailClient : Client :=
  { httpIncidents := fun _ => .error (.demisto "Error in API call [403] - Forbidden"),
    httpStatic := fun _ => .error (.other "unused"),
    httpEditable := fun _ => .error (.other "unused"),
    httpHistory := fun _ => .ok [] }

/-- C6 — `test_module` maps an authorization failure of the underlying
request (a `DemistoException` containing `Forbidden` or `Unauthorized`)
to the check-credentials message, returns `'ok'` on success, and
re-raises any other `DemistoException` unchanged. -/
theorem claim_C6_test_module_auth (c : Client) (dp : String → Option String)
    (fetch_time : String) (fetch_limit : Int)
    (incident_types incident_status_id incident_severities : List String) :
    (∀ r, c.httpIncidents (buildIncidentsBody Option.none [] [] [] MAX_PAGE_SIZE false) =
        .ok r →
      test_module c dp false fetch_time fetch_limit incident_types incident_status_id
        incident_severities = .ok "ok") ∧
    (∀ m, c.httpIncidents (buildIncidentsBody Option.none [] [] [] MAX_PAGE_SIZE false) =
        .error (.demisto m) →
      ((strContains m "Forbidden" || strContains m "Unauthorized") = true →
        test_module c dp false fetch_time fetch_limit incident_types incident_status_id
          incident_severities =
          .ok "Authorization Error: make sure username and password are correctly set") ∧
      ((strContains m "Forbidden" || strContains m "Unauthorized") = false →
        test_module c dp false fetch_time fetch_limit incident_types incident_status_id
          incident_severities = .error (.demisto m))) := by
  constructor
  · intro r hok
    simp [test_module, get_incidents_request, hok]
  · intro m herr
    constructor
    · intro hflag
      simp [test_module, get_incidents_request, herr, hflag]
    · intro hflag
      simp [test_module, get_incidents_request, herr, hflag]

theorem claim_C6_test_module_auth_witness :
    test_module emptyClient dpId false "3 days" 50 [] [] [] = .ok "ok" ∧
    test_module authFailClient dpId false "3 days" 50 [] [] [] =
      .ok "Authorization Error: make sure username and password are correctly set" :=
  ⟨(claim_C6_test_module_auth emptyClient dpId "3 days" 50 [] [] []).1 ⟨[]⟩ rfl,
   ((claim_C6_test_module_auth authFailClient dpId "3 days" 50 [] [] []).2
     "Error in API call [403] - Forbidden" rfl).1 (by decide)⟩

theorem take_min_length (xs : List α) (n : Nat) : xs.take (min n xs.length) = xs.take n := by
  rcases le_total n xs.length with h | h
  · rw [min_eq_left h]
  · rw [min_eq_right h, List.take_length, List.take_of_length_le h]

theorem pySlice_nonneg (a b : Int) (ha : 0 ≤ a) (hb : 0 ≤ b) (xs : List α) :
    pySlice a b xs = (xs.drop a.toNat).take (b.toNat - a.toNat) := by
  unfold pySlice pySliceBound
  rw [if_neg (not_lt.mpr ha), if_neg (not_lt.mpr hb), take_min_length]
  rcases le_total a.toNat xs.length with h | h
  · rw [min_eq_left h, List.drop_take]
  · rw [min_eq_right h]
    have h1 : (xs.take b.toNat).length ≤ xs.length := by
      rw [List.length_take]
      omega
    rw [List.drop_eq_nil_of_le h1, List.drop_eq_nil_of_le h, List.take_nil]

/-- C7 — `get_incidents_of_current_page`: with both `page` and
`page_size` given and `page ≥ 1` (and a non-negative page size, which
is what "elements from index `(page-1)*page_size` up to
`page*page_size`" presupposes), the result is exactly that index range;
`page ≤ 0` raises; with `page` or `page_size` absent it returns the
first `limit` elements, `limit` defaulting to `MAX_PAGE_SIZE = 50` when
falsy. -/
theorem claim_C7_pagination (limit page page_size : Option Int) (xs : List α) :
    (∀ p ps, page = some p → page_size = some ps → 1 ≤ p → 0 ≤ ps →
      get_incidents_of_current_page limit page page_size xs =
        .ok ((xs.drop ((p - 1) * ps).toNat).take ps.toNat)) ∧
    (∀ p ps, page = some p → page_size = some ps → p ≤ 0 →
      get_incidents_of_current_page limit page page_size xs =
        .error (.other "Chosen page number must be greater than 0")) ∧
    ((page = Option.none ∨ page_size = Option.none) → 0 ≤ effLimit limit →
      get_incidents_of_current_page limit page page_size xs =
        .ok (xs.take (effLimit limit).toNat)) ∧
    effLimit Option.none = 50 ∧ effLimit (some 0) = 50 := by
  refine ⟨?_, ?_, ?_, rfl, rfl⟩
  · intro p ps hp hps h1 h2
    subst hp
    subst hps
    simp only [get_incidents_of_current_page]
    rw [if_neg (by omega)]
    rw [pySlice_nonneg _ _ (mul_nonneg (by omega) h2) (mul_nonneg (by omega) h2)]
    have hmul : p * ps - (p - 1) * ps = ps := by ring
    have ha : 0 ≤ (p - 1) * ps := mul_nonneg (by omega) h2
    have hb : 0 ≤ p * ps := mul_nonneg (by omega) h2
    have htn : (p * ps).toNat - ((p - 1) * ps).toNat = ps.toNat := by omega
    rw [htn]
  · intro p ps hp hps h1
    subst hp
    subst hps
    simp only [get_incidents_of_current_page]
    rw [if_pos h1]
  · intro hnone hlim
    have hbr : get_incidents_of_current_page limit page page_size xs =
        .ok (pySlice 0 (effLimit limit) xs) := by
      rcases hnone with h | h
      · subst h
        rfl
      · subst h
        cases page with
        | none => rfl
        | some p => rfl
    rw [hbr, pySlice_nonneg 0 (effLimit limit) le_rfl hlim]
    simp

theorem claim_C7_pagination_witness :
    get_incidents_of_current_page (some 2) (some 2) (some 3)
      [0, 1, 2, 3, 4, 5, 6, 7] = .ok [3, 4, 5] ∧
    get_incidents_of_current_page Option.none (some 0) (some 3) ([] : List Nat) =
      .error (.other "Chosen page number must be greater than 0") ∧
    get_incidents_of_current_page Option.none Option.none Option.none [0, 1, 2] =
      .ok [0, 1, 2] :=
  ⟨(claim_C7_pagination (some 2) (some 2) (some 3) [0, 1, 2, 3, 4, 5, 6, 7]).1
      2 3 rfl rfl (by omega) (by omega),
   (claim_C7_pagination Option.none (some 0) (some 3) ([] : List Nat)).2.1
      0 3 rfl rfl (by omega),
   (claim_C7_pagination Option.none Option.none Option.none [0, 1, 2]).2.2.1
      (Or.inl rfl) (by decide)⟩

/-- A well-formed custom-attribute update string: splits on `:` into
exactly two parts whose first part is all digits (`isdigit`). -/
def attrWellFormed (a : String) : Bool :=
  match pySplitChar ':' a with
  | [i, _] => pyStrIsDigit i
  | _ => false

/-- The record a well-formed custom-attribute string produces. -/
def attrMk (a : String) : CustomAttrUpdate :=
  match pySplitChar ':' a with
  | [i, v] => { columnIndex := (digitsToNat i : Int), value := v }
  | _ => { columnIndex := 0, value := "" }

theorem buildOneCustomAttr_spec (a : String) :
    (attrWellFormed a = true ∧ buildOneCustomAttr a = .ok (attrMk a)) ∨
    (attrWellFormed a = false ∧ ∃ m, buildOneCustomAttr a = .error (.demisto m)) := by
  cases hsplit : pySplitChar ':' a with
  | nil =>
    right
    exact ⟨by simp [attrWellFormed, hsplit], "Error: custom_attributes argument format is \x7bcolumnIndex\x7d:\x7bnewValue\x7d. E.g: 1:test",
      by simp [buildOneCustomAttr, hsplit]⟩
  | cons i rest =>
    cases rest with
    | nil =>
      right
      exact ⟨by simp [attrWellFormed, hsplit], "Error: custom_attributes argument format is \x7bcolumnIndex\x7d:\x7bnewValue\x7d. E.g: 1:test",
        by simp [buildOneCustomAttr, hsplit]⟩
    | cons v rest2 =>
      cases rest2 with
      | nil =>
        by_cases hdig : pyStrIsDigit i = true
        · left
          constructor
          · simp [attrWellFormed, hsplit, hdig]
          · simp [buildOneCustomAttr, attrMk, hsplit, hdig]
        · right
          rw [Bool.not_eq_true] at hdig
          exact ⟨by simp [attrWellFormed, hsplit, hdig], "Error: The attribute index must be an integer.",
            by simp [buildOneCustomAttr, hsplit, hdig]⟩
      | cons w rest3 =>
        right
        exact ⟨by simp [attrWellFormed, hsplit], "Error: custom_attributes argument format is \x7bcolumnIndex\x7d:\x7bnewValue\x7d. E.g: 1:test",
          by simp [buildOneCustomAttr, hsplit]⟩

/-- C10 — `build_custom_attributes_update` raises a `DemistoException`
exactly when some input string does not split on `:` into an all-digit
index and a value (so a value containing `:`, such as `'1:a:b'`, is
rejected); otherwise it returns one
`{"columnIndex": int(index), "value": value}` record per string, in
input order. -/
theorem claim_C10_custom_attributes_update (custom_attributes : List String) :
    ((∃ m, build_custom_attributes_update custom_attributes = .error (.demisto m)) ↔
      ∃ a ∈ custom_attributes, attrWellFormed a = false) ∧
    ((∀ a ∈ custom_attributes, attrWellFormed a = true) →
      build_custom_attributes_update custom_attributes =
        .ok (custom_attributes.map attrMk)) := by
  induction custom_attributes with
  | nil =>
    constructor
    · constructor
      · rintro ⟨m, hm⟩
        exact absurd hm (by simp [build_custom_attributes_update, mapME])
      · rintro ⟨a, ha, _⟩
        exact absurd ha (List.not_mem_nil a)
    · intro _
      rfl
  | cons a as ih =>
    rcases buildOneCustomAttr_spec a with ⟨hwf, hstep⟩ | ⟨hwf, m0, hstep⟩
    · constructor
      · constructor
        · rintro ⟨m, hm⟩
          simp only [build_custom_attributes_update, mapME] at hm
          rw [hstep] at hm
          cases hrest : mapME buildOneCustomAttr as with
          | error e =>
            rw [hrest] at hm
            simp only [Except.error.injEq] at hm
            subst hm
            obtain ⟨a', ha', hwf'⟩ := ih.1.mp ⟨m, hrest⟩
            exact ⟨a', List.mem_cons_of_mem a ha', hwf'⟩
          | ok ys =>
            rw [hrest] at hm
            exact absurd hm (by simp)
        · rintro ⟨a', ha', hwf'⟩
          rcases List.mem_cons.mp ha' with h | h
          · subst h
            rw [hwf'] at hwf
            exact absurd hwf (by simp)
          · obtain ⟨m, hm⟩ := ih.1.mpr ⟨a', h, hwf'⟩
            refine ⟨m, ?_⟩
            simp only [build_custom_attributes_update, mapME]
            rw [hstep]
            simp only [build_custom_attributes_update] at hm
            rw [hm]
      · intro hall
        simp only [build_custom_attributes_update, mapME]
        rw [hstep]
        have hrest := ih.2 (fun x hx => hall x (List.mem_cons_of_mem a hx))
        simp only [build_custom_attributes_update] at hrest
        rw [hrest]
        simp
    · constructor
      · constructor
        · intro _
          exact ⟨a, List.mem_cons_self a as, hwf⟩
        · intro _
          refine ⟨m0, ?_⟩
          simp only [build_custom_attributes_update, mapME]
          rw [hstep]
      · intro hall
        rw [hall a (List.mem_cons_self a as)] at hwf
        exact absurd hwf (by simp)

theorem claim_C10_custom_attributes_update_witness :
    build_custom_attributes_update ["1:test", "12:other"] =
      .ok [{ columnIndex := 1, value := "test" }, { columnIndex := 12, value := "other" }] ∧
    (∃ m, build_custom_attributes_update ["1:a:b"] = .error (.demisto m)) := by
  constructor
  · exact (claim_C10_custom_attributes_update ["1:test", "12:other"]).2 (by decide)
  · exact (claim_C10_custom_attributes_update ["1:a:b"]).1.mpr ⟨"1:a:b", by simp, by decide⟩

/-- C8 — The documented `'utf-8'` default of `decoders_hex` is
unreachable through `decoders_hex_command`: an args dict without a
`'to'` key makes the command pass `to=None` into `decoders_hex`, and
`bytes.decode(None)` raises `TypeError`, even for a non-empty valid hex
`'encoded'` value. -/
theorem claim_C8_hex_default_unreachable (args : PyDict) (s : String) (bs : List Nat)
    (hto : args.lookup "to" = Option.none)
    (henc : args.lookup "encoded" = some (.str s))
    (hne : s ≠ "")
    (hhex : bytes_fromhex s = some bs) :
    decoders_hex s Option.none =
      .error (.typeError "decode() argument encoding must be str, not None") ∧
    decoders_hex_command args =
      .error (.typeError "decode() argument encoding must be str, not None") := by
  have hdec : decoders_hex s Option.none =
      .error (.typeError "decode() argument encoding must be str, not None") := by
    simp [decoders_hex, hhex, pyBytesDecode]
  refine ⟨hdec, ?_⟩
  simp [decoders_hex_command, assocGetD, hto, henc, pyTruthy, hne, hdec, Except.map]

theorem claim_C8_hex_default_unreachable_witness :
    decoders_hex_command [("encoded", PyVal.str "41")] =
      .error (.typeError "decode() argument encoding must be str, not None") :=
  (claim_C8_hex_default_unreachable [("encoded", PyVal.str "41")] "41" [65]
    rfl rfl (by decide) rfl).2

/-- A history entry carrying the three keys
`get_context_incident_history` pops. -/
def hasHistoryKeys (e : PyDict) : Bool :=
  (e.lookup "incidentId").isSome &&
  (e.lookup "incidentHistoryActionI18nKey").isSome &&
  (e.lookup "internationalized").isSome

theorem lookup_filter_ne (e : PyDict) (k k' : String) (h : k' ≠ k) :
    (e.filter (fun p => p.1 ≠ k)).lookup k' = e.lookup k' := by
  induction e with
  | nil => rfl
  | cons p rest ih =>
    obtain ⟨a, b⟩ := p
    rw [List.filter_cons]
    by_cases hak : a = k
    · subst hak
      rw [if_neg (by simp)]
      have hk' : (k' == a) = false := by
        simp [h]
      simp only [List.lookup, hk']
      exact ih
    · rw [if_pos (by simp [hak])]
      simp only [List.lookup]
      cases hka : (k' == a) with
      | true => simp [hka]
      | false => simp only [hka]
                 exact ih

theorem historyPopChain_ok_keys (e y : PyDict) (h : historyPopChain e = .ok y) :
    hasHistoryKeys e = true := by
  simp only [historyPopChain] at h
  cases h1 : dictPop e "incidentId" with
  | error err => rw [h1] at h; exact absurd h (by simp)
  | ok ih1 =>
    rw [h1] at h
    dsimp only at h
    cases h2 : dictPop ih1 "incidentHistoryActionI18nKey" with
    | error err => rw [h2] at h; exact absurd h (by simp)
    | ok ih2 =>
      rw [h2] at h
      dsimp only at h
      simp only [dictPop] at h1 h2 h
      cases hl1 : e.lookup "incidentId" with
      | none => rw [hl1] at h1; exact absurd h1 (by simp)
      | some v1 =>
        rw [hl1] at h1
        simp only [Except.ok.injEq] at h1
        cases hl2 : ih1.lookup "incidentHistoryActionI18nKey" with
        | none => rw [hl2] at h2; exact absurd h2 (by simp)
        | some v2 =>
          rw [hl2] at h2
          simp only [Except.ok.injEq] at h2
          cases hl3 : ih2.lookup "internationalized" with
          | none => rw [hl3] at h; exact absurd h (by simp)
          | some v3 =>
            have he2 : e.lookup "incidentHistoryActionI18nKey" = some v2 := by
              rw [← lookup_filter_ne e "incidentId" "incidentHistoryActionI18nKey"
                (by decide), h1]
              exact hl2
            have he3 : e.lookup "internationalized" = some v3 := by
              rw [← lookup_filter_ne e "incidentId" "internationalized" (by decide), h1,
                ← lookup_filter_ne ih1 "incidentHistoryActionI18nKey" "internationalized"
                  (by decide), h2]
              exact hl3
            simp [hasHistoryKeys, hl1, he2, he3]

theorem mapME_error_of_elem (f : α → Except PyErr β) (l : List α) (x : α)
    (hx : x ∈ l) (hf : ∀ y, f x ≠ .ok y) : ∃ e, mapME f l = .error e := by
  induction l with
  | nil => exact absurd hx (List.not_mem_nil x)
  | cons a as ih =>
    cases hfa : f a with
    | error e => exact ⟨e, by simp [mapME, hfa]⟩
    | ok y =>
      rcases List.mem_cons.mp hx with h | h
      · subst h
        exact absurd hfa (hf y)
      · obtain ⟨e, he⟩ := ih h
        exact ⟨e, by simp [mapME, hfa, he]⟩

theorem mapME_ok_forall (f : α → Except PyErr β) (l : List α) (ys : List β)
    (h : mapME f l = .ok ys) : ∀ x ∈ l, ∃ y, f x = .ok y := by
  induction l generalizing ys with
  | nil => intro x hx; exact absurd hx (List.not_mem_nil x)
  | cons a as ih =>
    intro x hx
    simp only [mapME] at h
    cases hfa : f a with
    | error e => rw [hfa] at h; exact absurd h (by simp)
    | ok y =>
      rw [hfa] at h
      cases hrest : mapME f as with
      | error e => rw [hrest] at h; exact absurd h (by simp)
      | ok zs =>
        rcases List.mem_cons.mp hx with hxa | hxas
        · subst hxa
          exact ⟨y, hfa⟩
        · exact ih zs hrest x hxas

/-- A history entry carrying all popped keys. -/
def histGoodEntry : PyDict :=
  [("incidentId", .int 1), ("incidentHistoryActionI18nKey", .str "k"),
   ("internationalized", .str "v"), ("incidentHistoryDate", .str "d")]

/-- A history entry missing all three popped keys. -/
def histBadEntry : PyDict := [("incidentHistoryDate", .str "d2")]

/-- A client whose history endpoint returns a well-formed entry
followed by one missing the popped keys. -/
def histClient : Client :=
  { httpIncidents := fun _ => .ok ⟨[]⟩,
    httpStatic := fun _ => .error (.other "unused"),
    httpEditable := fun _ => .error (.other "unused"),
    httpHistory := fun _ => .ok [histGoodEntry, histBadEntry] }

/-- Concrete history-command args with `limit = 1`. -/
def histArgs : PyDict := [("incident_id", .str "1"), ("limit", .str "1")]

/-- C9 counterexample — `get_incident_history_command` succeeds even
though the vendor's history list contains an entry without the keys
`incidentId`, `incidentHistoryActionI18nKey`, `internationalized`: the
`[:limit]` truncation (here `limit = 1`) keeps the malformed entry out
of `get_context_incident_history`, so the claim's "only succeeds when
the vendor returns a non-empty list whose entries all carry those
keys" is false. -/
theorem claim_C9_counterexample :
    (get_incident_history_command histClient histArgs).isOk = true ∧
    histClient.httpHistory (some 1) = .ok [histGoodEntry, histBadEntry] ∧
    hasHistoryKeys histBadEntry = false := by
  refine ⟨rfl, rfl, rfl⟩

/-- C9 (amended) — `get_context_incident_history` raises on the empty
list; it raises whenever any entry of the list it is given is missing
one of the keys `incidentId`, `incidentHistoryActionI18nKey` or
`internationalized` (a `KeyError` from `pop` unless the first entry's
`incidentId` already fails `arg_to_number`); hence
`get_incident_history_command` only succeeds when the first
`min(limit, len)` entries of the vendor's history list — the
`[:limit]` truncation it actually processes — form a non-empty list
whose entries all carry those keys. -/
theorem claim_C9_history_requires_keys :
    (get_context_incident_history [] = .error .indexError) ∧
    (∀ (l : List PyDict) (e : PyDict), e ∈ l → hasHistoryKeys e = false →
      ∃ err, get_context_incident_history l = .error err) ∧
    (∀ (c : Client) (args : PyDict) (r : CommandResults) (iid lim : Option Int)
        (hist : List PyDict),
      pyArgToNumber (assocGetD args "incident_id" .none) = .ok iid →
      pyArgToNumber (assocGetD args "limit" (.int 50)) = .ok lim →
      c.httpHistory iid = .ok hist →
      get_incident_history_command c args = .ok r →
      sliceToLimit hist lim ≠ [] ∧
        ∀ e ∈ sliceToLimit hist lim, hasHistoryKeys e = true) := by
  refine ⟨rfl, ?_, ?_⟩
  · intro l e hmem hkeys
    have hne : ∀ y, historyPopChain e ≠ .ok y := by
      intro y hy
      rw [historyPopChain_ok_keys e y hy] at hkeys
      exact absurd hkeys (by simp)
    cases l with
    | nil => exact absurd hmem (List.not_mem_nil e)
    | cons e0 rest =>
      cases hn : pyArgToNumber (assocGetD e0 "incidentId" .none) with
      | error err => exact ⟨err, by simp [get_context_incident_history, hn]⟩
      | ok iid =>
        obtain ⟨err, herr⟩ := mapME_error_of_elem historyPopChain (e0 :: rest) e hmem hne
        exact ⟨err, by simp [get_context_incident_history, hn, herr]⟩
  · intro c args r iid lim hist hiid hlim hhist hcmd
    simp only [get_incident_history_command] at hcmd
    rw [hiid] at hcmd
    dsimp only at hcmd
    rw [hlim] at hcmd
    dsimp only at hcmd
    rw [hhist] at hcmd
    dsimp only at hcmd
    cases hctx : get_context_incident_history (sliceToLimit hist lim) with
    | error err => rw [hctx] at hcmd; exact absurd hcmd (by simp)
    | ok ctx =>
      cases htr : sliceToLimit hist lim with
      | nil =>
        rw [htr] at hctx
        exact absurd hctx (by simp [get_context_incident_history])
      | cons e0 rest =>
        rw [htr] at hctx
        simp only [get_context_incident_history] at hctx
        refine ⟨by simp, ?_⟩
        cases hn : pyArgToNumber (assocGetD e0 "incidentId" .none) with
        | error err => rw [hn] at hctx; exact absurd hctx (by simp)
        | ok iid0 =>
          rw [hn] at hctx
          dsimp only at hctx
          cases hmap : mapME historyPopChain (e0 :: rest) with
          | error err => rw [hmap] at hctx; exact absurd hctx (by simp)
          | ok cleaned =>
            intro e hmem
            obtain ⟨y, hy⟩ := mapME_ok_forall historyPopChain (e0 :: rest) cleaned hmap e hmem
            exact historyPopChain_ok_keys e y hy

theorem claim_C9_history_requires_keys_witness :
    (∃ err, get_context_incident_history [histBadEntry] = .error err) ∧
    (get_context_incident_history [] = .error .indexError) := by
  constructor
  · exact claim_C9_history_requires_keys.2.1 [histBadEntry] histBadEntry (by simp) rfl
  · exact claim_C9_history_requires_keys.1

theorem char_valid_cases (c : Char) :
    c.toNat < 55296 ∨ (57344 ≤ c.toNat ∧ c.toNat < 1114112) := by
  have h := c.valid
  rcases h with h | ⟨h1, h2⟩
  · left
    exact h
  · right
    exact ⟨h1, h2⟩

theorem hexVal_hexDigitChar : ∀ d, d < 16 → hexVal (hexDigitChar d) = some d := by
  decide

theorem hexDigitChar_ne_space : ∀ d, d < 16 → hexDigitChar d ≠ ' ' := by
  decide

theorem bytesFromhexAux_encode (bs : List Nat) (h : ∀ x ∈ bs, x < 256) :
    bytesFromhexAux (bs.flatMap (fun b => [hexDigitChar (b / 16), hexDigitChar (b % 16)])) =
      some bs := by
  induction bs with
  | nil => rfl
  | cons b rest ih =>
    have hb : b < 256 := h b (List.mem_cons_self b rest)
    have hhi : b / 16 < 16 := by omega
    have hlo : b % 16 < 16 := by omega
    simp only [List.flatMap_cons, List.cons_append, List.nil_append]
    simp only [bytesFromhexAux]
    rw [if_neg (hexDigitChar_ne_space (b / 16) hhi)]
    rw [hexVal_hexDigitChar (b / 16) hhi, hexVal_hexDigitChar (b % 16) hlo]
    rw [ih (fun x hx => h x (List.mem_cons_of_mem b hx))]
    simp only [Option.map_some]
    have : 16 * (b / 16) + b % 16 = b := by omega
    rw [this]
    rfl

theorem utf8EncodeChar_lt256 (c : Char) : ∀ b ∈ utf8EncodeChar c, b < 256 := by
  intro b hb
  have hval := char_valid_cases c
  have hn : c.toNat < 1114112 := by
    rcases hval with h | ⟨_, h⟩ <;> omega
  simp only [utf8EncodeChar] at hb
  split_ifs at hb with h1 h2 h3
  · simp only [List.mem_singleton] at hb
    omega
  · simp only [List.mem_cons, List.not_mem_nil, or_false] at hb
    rcases hb with rfl | rfl <;> omega
  · simp only [List.mem_cons, List.not_mem_nil, or_false] at hb
    rcases hb with rfl | rfl | rfl <;> omega
  · simp only [List.mem_cons, List.not_mem_nil, or_false] at hb
    rcases hb with rfl | rfl | rfl | rfl <;> omega


set_option maxRecDepth 4096 in
theorem utf8DecodeAux_encodeChar (c : Char) (bs : List Nat) :
    utf8DecodeAux Option.none (utf8EncodeChar c ++ bs) =
      (utf8DecodeAux Option.none bs).map (fun cs => c :: cs) := by
  have hval := char_valid_cases c
  have hofn : Char.ofNat c.toNat = c := Char.ofNat_toNat c
  simp only [utf8EncodeChar]
  by_cases h1 : c.toNat < 128
  · rw [if_pos h1]
    simp only [List.cons_append, List.nil_append]
    rw [utf8DecodeAux.eq_3, if_pos h1]
    simp only [hofn]
  · rw [if_neg h1]
    by_cases h2 : c.toNat < 2048
    · rw [if_pos h2]
      simp only [List.cons_append, List.nil_append]
      rw [utf8DecodeAux.eq_3]
      rw [if_neg (by omega : ¬(192 + c.toNat / 64 < 128))]
      rw [if_neg (by omega : ¬(192 + c.toNat / 64 < 192))]
      rw [if_pos (by omega : 192 + c.toNat / 64 < 224)]
      simp only [utf8DecodeAux.eq_4]
      have hv : (192 + c.toNat / 64 - 192) * 64 + (128 + c.toNat % 64 - 128) =
          c.toNat := by
        omega
      rw [hv, hofn]
      split_ifs <;> first | rfl | (exfalso; omega)
    · rw [if_neg h2]
      by_cases h3 : c.toNat < 65536
      · rw [if_pos h3]
        simp only [List.cons_append, List.nil_append]
        rw [utf8DecodeAux.eq_3]
        rw [if_neg (by omega : ¬(224 + c.toNat / 4096 < 128))]
        rw [if_neg (by omega : ¬(224 + c.toNat / 4096 < 192))]
        rw [if_neg (by omega : ¬(224 + c.toNat / 4096 < 224))]
        rw [if_pos (by omega : 224 + c.toNat / 4096 < 240)]
        simp only [utf8DecodeAux.eq_4]
        have hv : ((224 + c.toNat / 4096 - 224) * 64 + (128 + c.toNat / 64 % 64 - 128)) *
            64 + (128 + c.toNat % 64 - 128) = c.toNat := by
          omega
        rw [hv, hofn]
        split_ifs <;> first | rfl | (exfalso; omega)
      · rw [if_neg h3]
        have hn : c.toNat < 1114112 := by
          rcases hval with h | ⟨_, h⟩ <;> omega
        simp only [List.cons_append, List.nil_append]
        rw [utf8DecodeAux.eq_3]
        rw [if_neg (by omega : ¬(240 + c.toNat / 262144 < 128))]
        rw [if_neg (by omega : ¬(240 + c.toNat / 262144 < 192))]
        rw [if_neg (by omega : ¬(240 + c.toNat / 262144 < 224))]
        rw [if_neg (by omega : ¬(240 + c.toNat / 262144 < 240))]
        rw [if_pos (by omega : 240 + c.toNat / 262144 < 245)]
        simp only [utf8DecodeAux.eq_4]
        have hv : (((240 + c.toNat / 262144 - 240) * 64 +
            (128 + c.toNat / 4096 % 64 - 128)) * 64 +
            (128 + c.toNat / 64 % 64 - 128)) * 64 + (128 + c.toNat % 64 - 128) =
            c.toNat := by
          omega
        rw [hv, hofn]
        split_ifs <;> first | rfl | (exfalso; omega)

theorem utf8Decode_utf8Encode (cs : List Char) : utf8Decode (utf8Encode cs) = some cs := by
  unfold utf8Decode
  induction cs with
  | nil => rfl
  | cons c rest ih =>
    simp only [utf8Encode, List.flatMap_cons]
    rw [utf8DecodeAux_encodeChar]
    simp only [utf8Encode] at ih
    rw [ih]
    rfl

theorem utf8Encode_lt256 (cs : List Char) : ∀ x ∈ utf8Encode cs, x < 256 := by
  intro x hx
  simp only [utf8Encode, List.mem_flatMap] at hx
  obtain ⟨c, _, hxc⟩ := hx
  exact utf8EncodeChar_lt256 c x hxc

/-- C5 — Hex decoding round-trips: for every byte sequence `b` that is
valid UTF-8 (decoding to `cs`), `decoders_hex` with encoding `'utf-8'`
(the declared default) applied to the hexadecimal encoding of `b`
returns exactly the UTF-8 decoding of `b`; in particular hex-encode
followed by `decoders_hex` is the identity on UTF-8 text. -/
theorem claim_C5_hex_roundtrip :
    (∀ (b : List Nat) (cs : List Char), (∀ x ∈ b, x < 256) →
      utf8Decode b = some cs →
      decoders_hex (bytesToHex b) (some "utf-8") = .ok (String.mk cs)) ∧
    (∀ cs : List Char,
      decoders_hex (bytesToHex (utf8Encode cs)) (some "utf-8") =
        .ok (String.mk cs)) := by
  have main : ∀ (b : List Nat) (cs : List Char), (∀ x ∈ b, x < 256) →
      utf8Decode b = some cs →
      decoders_hex (bytesToHex b) (some "utf-8") = .ok (String.mk cs) := by
    intro b cs hb hdec
    have hfrom : bytes_fromhex (bytesToHex b) = some b := by
      simp only [bytes_fromhex, bytesToHex]
      exact bytesFromhexAux_encode b hb
    simp [decoders_hex, hfrom, pyBytesDecode, hdec]
  refine ⟨main, ?_⟩
  intro cs
  exact main (utf8Encode cs) cs (utf8Encode_lt256 cs) (utf8Decode_utf8Encode cs)

theorem claim_C5_hex_roundtrip_witness :
    decoders_hex (bytesToHex [72, 105]) (some "utf-8") = .ok "Hi" :=
  claim_C5_hex_roundtrip.1 [72, 105] ['H', 'i'] (by decide) (by decide)
